import Mathlib

/-!
# Phantom: a verification development

Shallow embedding of the four source files of the Phantom kernel extension

* `kern_safety.hpp`      (address / string validators)
* `kern_kextmanager.cpp` (the loaded-kext dictionary filter)
* `kern_securelevel.cpp` (the `kern.securelevel` handler reroute)
* `kern_vmm.cpp`         (the `kern.hv_vmm_present` handler reroute and policy filter)

Conventions.

* A pointer is a natural number, `0` is `nullptr`.
* A C string is the list of its characters up to, not including, the terminating NUL;
  a nullable `const char *` is an `Option` of such a list.
* Kernel services the code calls but does not define (libkern containers, the sysctl
  tree memory, `setKernelWriting`, `current_proc`, `proc_name`, `SYSCTL_OUT`) are explicit
  state or explicit inputs of the embedded functions.
-/

namespace Phantom

/-! ## C library string routines used by the sources -/

/-- A C string: the characters before the terminating NUL. -/
abbrev CString := List Char

/-- `strlen(s)`. -/
def strlen (s : CString) : Nat := s.length

/-- `strnlen(s, maxLen)`: the length of `s`, but never more than `maxLen`. -/
def strnlen (s : CString) (maxLen : Nat) : Nat := min s.length maxLen

/-- `strnlen(s, maxLen)` as the byte-by-byte scan it is: the length found and the number
of bytes read (the terminator counts as a byte read when the scan reaches it). -/
def strnlenScan : CString → Nat → Nat × Nat
  | _, 0 => (0, 0)
  | [], _ + 1 => (0, 1)
  | _ :: cs, n + 1 => ((strnlenScan cs n).1 + 1, (strnlenScan cs n).2 + 1)

/-- `strcmp(a, b)`: zero when equal, otherwise the difference of the first pair of
differing characters (the end of a string reads as NUL, i.e. `0`). -/
def strcmp : CString → CString → Int
  | [], [] => 0
  | [], b :: _ => 0 - (b.toNat : Int)
  | a :: _, [] => (a.toNat : Int)
  | a :: as, b :: bs => if a = b then strcmp as bs else (a.toNat : Int) - (b.toNat : Int)

/-- `strncmp(a, b, n)`: like `strcmp` but looks at no more than `n` characters. -/
def strncmp : CString → CString → Nat → Int
  | _, _, 0 => 0
  | [], [], _ + 1 => 0
  | [], b :: _, _ + 1 => 0 - (b.toNat : Int)
  | a :: _, [], _ + 1 => (a.toNat : Int)
  | a :: as, b :: bs, n + 1 =>
    if a = b then strncmp as bs n else (a.toNat : Int) - (b.toNat : Int)

/-! ## kern_safety.hpp -/

/-- A pointer value; `0` is `nullptr`. -/
abbrev Ref := Nat

/-- Embedding of `isValidKernelAddress(mach_vm_address_t addr)`:
`addr >= 0xffffff8000000000ULL && addr <= 0xfffffffffffffffULL && (addr & 0x7) == 0`.
The upper bound is written in the source with fifteen hexadecimal digits `f`. -/
def isValidKernelAddress (addr : Nat) : Bool :=
  decide (addr ≥ 0xffffff8000000000) && decide (addr ≤ 0xfffffffffffffff) &&
    ((addr &&& 0x7) == 0)

/-- Embedding of `isSafeString(const char *str, size_t maxLen = 256)` with its reads:
the value returned and the number of bytes of `str` the call reads.  A null pointer is
answered by `if (!str) return false;` without a read; otherwise the one scan
`strnlen(str, maxLen)` is made, its result decides the answer, and the bytes it read
are the bytes the call read. -/
def isSafeStringRun (str : Option CString) (maxLen : Nat) : Bool × Nat :=
  match str with
  | none => (false, 0)
  | some s =>
    let scan := strnlenScan s maxLen
    (decide (scan.1 < maxLen), scan.2)

/-- Embedding of `isSafeString(const char *str, size_t maxLen = 256)`: the value the
call returns. -/
def isSafeString (str : Option CString) (maxLen : Nat) : Bool :=
  (isSafeStringRun str maxLen).1

/-- Embedding of `isValidSysctlNode(sysctl_oid *node)`; the node is given by its address
and, when the address is not null, the name pointer stored in it. -/
def isValidSysctlNode (node : Ref) (oid_name : Option CString) : Bool :=
  (node != 0) && oid_name.isSome && isSafeString oid_name 64

/-! ## libkern reference-counted objects (the kernel heap seen by the kext filter)

`OSDictionary`, `OSString` and `OSCollectionIterator` belong to the kernel, not to
Phantom.  They are modelled as far as `phtm_OSKext_copyLoadedKextInfo` observes them:
retain counts, the entries of a dictionary in storage order, and the character buffer
of a string. -/

/-- The contents of a libkern object. -/
inductive OSObject where
  /-- An `OSString` (or `OSSymbol`) and what `getCStringNoCopy()` gives for it. -/
  | OSString (cstr : Option CString)
  /-- An `OSDictionary` with its (key, value) pairs in storage order. -/
  | OSDictionary (entries : List (Ref × Ref))
  /-- An `OSCollectionIterator` over the collection at the given address. -/
  | OSCollectionIterator (collection : Ref)
  /-- An object of any other class. -/
  | other
  deriving DecidableEq, Repr

/-- The kernel heap: for every address the object stored there and its retain count
(`0` for memory that holds no live object). -/
structure Heap where
  object : Ref → OSObject
  retainCount : Ref → Nat

namespace Heap

/-- `obj->retain()`. -/
def retain (h : Heap) (r : Ref) : Heap :=
  { h with retainCount := Function.update h.retainCount r (h.retainCount r + 1) }

/-- One reference to `r` is given up (the count drops by one); nothing else happens. -/
def drop (h : Heap) (r : Ref) : Heap :=
  { h with retainCount := Function.update h.retainCount r (h.retainCount r - 1) }

/-- A freed dictionary lets go of every key and every value it held. -/
def flush (h : Heap) : List (Ref × Ref) → Heap
  | [] => h
  | e :: es => flush ((h.drop e.1).drop e.2) es

/-- `obj->release()` for an object that is not an iterator: the count drops by one and,
when it reaches zero, a dictionary releases its entries (one level deep: what the
deallocation of a released key or value does in turn is not tracked). -/
def releaseObject (h : Heap) (r : Ref) : Heap :=
  let h1 := h.drop r
  if h1.retainCount r = 0 then
    match h.object r with
    | .OSDictionary entries => h1.flush entries
    | _ => h1
  else h1

/-- `obj->release()`.  An iterator whose count reaches zero releases the collection it
was created over. -/
def release (h : Heap) (r : Ref) : Heap :=
  match h.object r with
  | .OSCollectionIterator collection =>
    let h1 := h.drop r
    if h1.retainCount r = 0 then h1.releaseObject collection else h1
  | _ => h.releaseObject r

/-- `dict->getCount()`, an `unsigned int`. -/
def getCount (h : Heap) (dict : Ref) : Nat :=
  match h.object dict with
  | .OSDictionary entries => entries.length % 2 ^ 32
  | _ => 0

/-- `dict->getObject(key)`: the value stored under `key`, `0` when there is none.  No
retain is taken. -/
def getObject (h : Heap) (dict key : Ref) : Ref :=
  match h.object dict with
  | .OSDictionary entries => (entries.lookup key).getD 0
  | _ => 0

/-- `OSDynamicCast(OSString, obj)`: the object itself when it is a string, else null. -/
def castOSString (h : Heap) (obj : Ref) : Ref :=
  match h.object obj with
  | .OSString _ => obj
  | _ => 0

/-- `str->getCStringNoCopy()`. -/
def getCStringNoCopy (h : Heap) (str : Ref) : Option CString :=
  match h.object str with
  | .OSString cstr => cstr
  | _ => none

/-- Replace the value stored under `key`. -/
def replaceValue (key value : Ref) : List (Ref × Ref) → List (Ref × Ref)
  | [] => []
  | e :: es => if e.1 = key then (key, value) :: es else e :: replaceValue key value es

/-- `dict->setObject(key, value)`.  A new key is appended and the dictionary retains
both key and value; for a key already present the new value is retained, stored, and
the old value released.  (The destination is created with room for every entry of the
source, so the call never has to grow it.) -/
def setObject (h : Heap) (dict key value : Ref) : Heap :=
  match h.object dict with
  | .OSDictionary entries =>
    match entries.lookup key with
    | some old =>
      let h1 := h.retain value
      let h2 : Heap :=
        { h1 with object := Function.update h1.object dict
                    (.OSDictionary (replaceValue key value entries)) }
      h2.releaseObject old
    | none =>
      let h1 := (h.retain key).retain value
      { h1 with object := Function.update h1.object dict
                  (.OSDictionary (entries ++ [(key, value)])) }
  | _ => h

/-- `OSDictionary::withCapacity(capacity)`: `addr` is the address the allocator hands
out, `0` when it fails.  The new dictionary is empty and has retain count 1. -/
def withCapacity (h : Heap) (addr : Ref) (_capacity : Nat) : Ref × Heap :=
  if addr = 0 then (0, h)
  else (addr, { object := Function.update h.object addr (.OSDictionary []),
                retainCount := Function.update h.retainCount addr 1 })

/-- `OSCollectionIterator::withCollection(collection)`: `addr` is the address the
allocator hands out, `0` when it fails.  The iterator has retain count 1 and retains
the collection. -/
def withCollection (h : Heap) (addr : Ref) (collection : Ref) : Ref × Heap :=
  if addr = 0 then (0, h)
  else
    let h1 := h.retain collection
    (addr, { object := Function.update h1.object addr (.OSCollectionIterator collection),
             retainCount := Function.update h1.retainCount addr 1 })

/-- The objects a fresh iterator over `collection` yields through successive
`getNextObject()` calls before it yields null: the keys of a dictionary, in storage
order. -/
def iterated (h : Heap) (collection : Ref) : List Ref :=
  match h.object collection with
  | .OSDictionary entries => entries.map Prod.fst
  | _ => []

end Heap

/-! ## kern_kextmanager.cpp -/

/-- The table `filterSubstrings[]` of `phtm_OSKext_copyLoadedKextInfo`. -/
def filterSubstrings : List CString :=
  ["org.Carnations".toList, "org.acidanthera".toList, "as.vit9696".toList,
   "com.sn-labs".toList]

/-- The loop `for (size_t j = 0; j <= bundleLen - filterLen; ++j)` with its `strncmp`
test, started at offset `j` with `n` iterations to go; `true` is `found = true; break`. -/
def windowScan (bundleIDCStr filter : CString) (filterLen : Nat) : Nat → Nat → Bool
  | _, 0 => false
  | j, n + 1 =>
    if strncmp (bundleIDCStr.drop j) filter filterLen = 0 then true
    else windowScan bundleIDCStr filter filterLen (j + 1) n

/-- The body of the `i` loop for one filter: the value of `found`. -/
def foundFilter (bundleIDCStr filter : CString) : Bool :=
  let bundleLen := strlen bundleIDCStr
  let filterLen := strlen filter
  if bundleLen ≥ filterLen then
    -- j runs over 0, 1, ..., bundleLen - filterLen
    windowScan bundleIDCStr filter filterLen 0 (bundleLen - filterLen + 1)
  else false

/-- The loop `for (unsigned int i = 0; i < numFilters; ++i)` over the filters still to
try: the value of `matchedFilter` when the loop is left (`none` is `nullptr`, in which
case `shouldFilterThisKext` is `false`). -/
def matchFilters (bundleIDCStr : CString) : List CString → Option CString
  | [] => none
  | filter :: rest =>
    if foundFilter bundleIDCStr filter then some filter
    else matchFilters bundleIDCStr rest

/-- The decision `shouldFilterThisKext` for a key whose C string is `bundleIDCStr`
(possibly null, in which case no filter is tried). -/
def shouldFilterThisKext (bundleIDCStr : Option CString) : Bool :=
  match bundleIDCStr with
  | some cstr => (matchFilters cstr filterSubstrings).isSome
  | none => false

/-- The loop `while ((keyObject = iter->getNextObject()))` over the objects the iterator
still has to yield.  The state is the heap and `removedCount` (an `unsigned int`). -/
def filterLoop (originalDict filteredDict : Ref) : List Ref → Heap → Nat → Heap × Nat
  | [], h, removedCount => (h, removedCount)
  | keyObject :: rest, h, removedCount =>
    if keyObject = 0 then (h, removedCount)
    else
      let bundleID := h.castOSString keyObject
      if bundleID ≠ 0 then
        let value := h.getObject originalDict bundleID
        if value ≠ 0 then
          let bundleIDCStr := h.getCStringNoCopy bundleID
          if shouldFilterThisKext bundleIDCStr then
            filterLoop originalDict filteredDict rest h ((removedCount + 1) % 2 ^ 32)
          else
            filterLoop originalDict filteredDict rest
              (h.setObject filteredDict bundleID value) removedCount
        else filterLoop originalDict filteredDict rest h removedCount
      else filterLoop originalDict filteredDict rest h removedCount

/-- What one invocation of the replacement routine meets outside its arguments. -/
structure KextEnv where
  /-- The result of `current_proc()`, `0` when there is none. -/
  currentProcess : Ref
  /-- The saved pointer `original_OSKext_copyLoadedKextInfo`: `none` is `nullptr`,
  otherwise the routine, which maps its two arguments and the heap to the dictionary it
  returns (with a reference owned by the caller) and the heap afterwards. -/
  original : Option (Ref → Ref → Heap → Ref × Heap)
  /-- The address `OSDictionary::withCapacity` hands out (`0`: allocation fails). -/
  newDict : Ref
  /-- The address `OSCollectionIterator::withCollection` hands out (`0`: failure). -/
  newIter : Ref

/-- The three numbers of the closing log line: original, filtered and removed count. -/
structure FilterReport where
  originalCount : Nat
  filteredCount : Nat
  removedCount : Nat
  deriving DecidableEq, Repr

/-- The outcome of one invocation of `phtm_OSKext_copyLoadedKextInfo`. -/
structure KextResult where
  /-- The returned pointer. -/
  ret : Ref
  /-- The heap at return. -/
  heap : Heap
  /-- The objects on which the routine itself called `release()`, in call order. -/
  released : List Ref
  /-- The counts of the closing log line, present on the filtering path only. -/
  report : Option FilterReport

/-- Embedding of `phtm_OSKext_copyLoadedKextInfo(kextIdentifiers, bundlePaths)`.  The
process name is only used in log lines and is left out. -/
def phtm_OSKext_copyLoadedKextInfo (env : KextEnv) (kextIdentifiers bundlePaths : Ref)
    (h : Heap) : KextResult :=
  if env.currentProcess = 0 then
    match env.original with
    | some original =>
      let r := original kextIdentifiers bundlePaths h
      { ret := r.1, heap := r.2, released := [], report := none }
    | none => { ret := 0, heap := h, released := [], report := none }
  else
    match env.original with
    | none => { ret := 0, heap := h, released := [], report := none }
    | some original =>
      let r := original kextIdentifiers bundlePaths h
      let originalDict := r.1
      let h0 := r.2
      if originalDict = 0 then { ret := 0, heap := h0, released := [], report := none }
      else
        let originalCount := h0.getCount originalDict
        let a := h0.withCapacity env.newDict (if originalCount > 0 then originalCount else 1)
        let filteredDict := a.1
        let h1 := a.2
        if filteredDict = 0 then
          { ret := originalDict, heap := h1, released := [], report := none }
        else
          let b := h1.withCollection env.newIter originalDict
          let iter := b.1
          let h2 := b.2
          if iter ≠ 0 then
            let c := filterLoop originalDict filteredDict (h2.iterated originalDict) h2 0
            let h3 := c.1.release iter
            let filteredCount := h3.getCount filteredDict
            let h4 := h3.release originalDict
            { ret := filteredDict, heap := h4, released := [iter, originalDict],
              report := some { originalCount := originalCount,
                               filteredCount := filteredCount,
                               removedCount := c.2 } }
          else
            let h3 := h2.release filteredDict
            { ret := originalDict, heap := h3, released := [filteredDict], report := none }

/-- The outcome of `patcher.routeMultiple(KernelPatcher::KernelID, requests, 1)`: whether
it reports success, and the value it leaves in the request's original-pointer slot. -/
structure RouteOutcome where
  success : Bool
  original : Ref

/-- The outcome of `reRouteCopyLoadedKextInfo`. -/
structure RerouteOutcome where
  /-- The returned flag. -/
  ret : Bool
  /-- The value of `original_OSKext_copyLoadedKextInfo` afterwards. -/
  original : Ref
  /-- How many times `routeMultiple` was called. -/
  routeCalls : Nat
  deriving DecidableEq, Repr

/-- Embedding of `reRouteCopyLoadedKextInfo(patcher)`.  The framework call is given as
a function of the value the original-pointer slot holds when it is made. -/
def reRouteCopyLoadedKextInfo (routeMultiple : Ref → RouteOutcome)
    (original_OSKext_copyLoadedKextInfo : Ref) : RerouteOutcome :=
  let out := routeMultiple original_OSKext_copyLoadedKextInfo
  if out.success then
    if out.original ≠ 0 then { ret := true, original := out.original, routeCalls := 1 }
    else { ret := false, original := out.original, routeCalls := 1 }
  else { ret := false, original := out.original, routeCalls := 1 }

/-! ## The sysctl tree and the kernel state seen by the handler reroutes -/

/-- The fields of `struct sysctl_oid` the sources read or write. -/
structure sysctl_oid where
  /-- The next sibling, `oid_link.sle_next`. -/
  oid_link : Ref
  /-- The name pointer, `none` when null. -/
  oid_name : Option CString
  /-- The argument slot; for an interior node the address of its child list. -/
  oid_arg1 : Ref
  /-- The handler function pointer. -/
  oid_handler : Ref
  deriving DecidableEq, Repr

/-- `kern_return_t`. -/
abbrev kern_return_t := Int

/-- `KERN_SUCCESS`. -/
def KERN_SUCCESS : kern_return_t := 0

/-- `EINVAL`. -/
def EINVAL : Int := 22

/-- What a reroute does to the world outside its local variables, in program order. -/
inductive Event where
  /-- A call `MachInfo::setKernelWriting(enable, lock)` and the status it returned. -/
  | setKernelWriting (enable : Bool) (status : kern_return_t)
  /-- A store to the saved-original-handler variable of the module. -/
  | saveOriginal (handler : Ref)
  /-- A store to the `oid_handler` field of the node at `node`. -/
  | writeHandler (node : Ref) (handler : Ref)
  deriving DecidableEq, Repr

/-- The kernel state the two reroutes work on. -/
structure Kernel where
  /-- `PHTM::gSysctlChildrenAddr`, a 64-bit address. -/
  gSysctlChildrenAddr : Nat
  /-- Memory read as `struct sysctl_oid_list`: the first node (`slh_first`) of the list
  head stored at an address. -/
  slh_first : Ref → Ref
  /-- Memory read as `struct sysctl_oid`. -/
  oid : Ref → sysctl_oid
  /-- `SLP::originalSecureLevelHandler`. -/
  originalSecureLevelHandler : Ref
  /-- `VMM::originalHvVmmHandler`. -/
  originalHvVmmHandler : Ref
  /-- The stores and write-protection calls made so far, oldest first. -/
  trace : List Event

/-- The parts of the surroundings a reroute depends on. -/
structure PatchEnv where
  /-- The status `setKernelWriting(true, ...)` returns. -/
  enableStatus : kern_return_t
  /-- The status `setKernelWriting(false, ...)` returns. -/
  disableStatus : kern_return_t
  /-- The address of the function `phtm_sysctl_securelevel`. -/
  phtm_sysctl_securelevel : Ref
  /-- The address of the function `phtm_sysctl_vmm_present`. -/
  phtm_sysctl_vmm_present : Ref

/-- `MAX_TRAVERSAL`. -/
def MAX_TRAVERSAL : Nat := 1000

/-- How one `SLIST_FOREACH` scan of a sibling list ends. -/
inductive Scan where
  /-- Left by `break` with the loop variable at this node. -/
  | found (node : Ref)
  /-- The loop ran off the end of the list: the loop variable is null. -/
  | notFound
  /-- Left by `return false` when `++traversalCount > MAX_TRAVERSAL`. -/
  | limitExceeded
  deriving DecidableEq, Repr

/-- The loop
`SLIST_FOREACH(node, list, oid_link) { if (++traversalCount > MAX_TRAVERSAL) return false; ... }`
from the point where the loop variable is `node` and the counter is `traversalCount`.
The result is how the scan ends and the nodes whose name was examined, in order.
`fuel` bounds the number of iterations of the embedding (`none`: fuel used up); the
inner test `if (!node) continue;` can never fire and is left out. -/
def scanLevel (k : Kernel) (segment : CString) :
    Nat → Ref → Nat → List Ref → Option (Scan × List Ref)
  | 0, _, _, _ => none
  | fuel + 1, node, traversalCount, examined =>
    if node = 0 then some (.notFound, examined)
    else
      let traversalCount := traversalCount + 1
      if traversalCount > MAX_TRAVERSAL then some (.limitExceeded, examined)
      else
        match (k.oid node).oid_name with
        | none => scanLevel k segment fuel (k.oid node).oid_link traversalCount (examined ++ [node])
        | some name =>
          if strnlen name 32 < 32 ∧ strcmp name segment = 0 then
            some (.found node, examined ++ [node])
          else
            scanLevel k segment fuel (k.oid node).oid_link traversalCount (examined ++ [node])

/-- Store to the `oid_handler` field of the node at `node`. -/
def Kernel.setHandler (k : Kernel) (node : Ref) (handler : Ref) : Kernel :=
  { k with oid := Function.update k.oid node { k.oid node with oid_handler := handler },
           trace := k.trace ++ [.writeHandler node handler] }

/-- Record a `setKernelWriting` call. -/
def Kernel.kernelWriting (k : Kernel) (enable : Bool) (status : kern_return_t) : Kernel :=
  { k with trace := k.trace ++ [.setKernelWriting enable status] }

/-! ## kern_securelevel.cpp -/

/-- Embedding of `reRouteSecureLevel(patcher)`: the returned flag and the kernel state
afterwards (`none` only if a scan ran out of fuel). -/
def reRouteSecureLevel (env : PatchEnv) (k : Kernel) : Option (Bool × Kernel) :=
  if k.gSysctlChildrenAddr = 0 then some (false, k)
  else if k.gSysctlChildrenAddr < 0xffffff8000000000 then some (false, k)
  else
    let sysctlChildren : Ref := k.gSysctlChildrenAddr
    if sysctlChildren = 0 then some (false, k)
    else
      match scanLevel k "kern".toList (MAX_TRAVERSAL + 1) (k.slh_first sysctlChildren) 0 [] with
      | none => none
      | some (.limitExceeded, _) => some (false, k)
      | some (.notFound, _) => some (false, k)
      | some (.found kernNode, _) =>
        if (k.oid kernNode).oid_arg1 = 0 then some (false, k)
        else
          let kernChildren : Ref := (k.oid kernNode).oid_arg1
          if kernChildren = 0 then some (false, k)
          else
            match scanLevel k "securelevel".toList (MAX_TRAVERSAL + 1)
                (k.slh_first kernChildren) 0 [] with
            | none => none
            | some (.limitExceeded, _) => some (false, k)
            | some (.notFound, _) => some (false, k)
            | some (.found securelevelNode, _) =>
              if (k.oid securelevelNode).oid_handler = 0 then some (false, k)
              else
                let k1 : Kernel :=
                  { k with originalSecureLevelHandler := (k.oid securelevelNode).oid_handler,
                           trace := k.trace ++
                             [.saveOriginal (k.oid securelevelNode).oid_handler] }
                let k2 := k1.kernelWriting true env.enableStatus
                if env.enableStatus ≠ KERN_SUCCESS then some (false, k2)
                else
                  let k3 := k2.setHandler securelevelNode env.phtm_sysctl_securelevel
                  let k4 := k3.kernelWriting false env.disableStatus
                  some (true, k4)

/-- What one invocation of a replacement sysctl handler meets outside its arguments. -/
structure HandlerEnv where
  /-- The result of `current_proc()`, `0` when there is none. -/
  currentProcess : Ref
  /-- The result of `proc_pid(currentProcess)`. -/
  procPid : Int
  /-- The name the kernel holds for that pid, which `proc_name` copies out. -/
  processName : CString
  /-- The macro `MAX_PROC_NAME_LEN` of `kern_start.hpp`, the size of the name buffer. -/
  MAX_PROC_NAME_LEN : Nat
  /-- `SYSCTL_OUT(req, &value, sizeof(value))`: the status the request's copy-out
  routine returns when handed `value`. -/
  sysctlOut : Int → Int

/-- The outcome of one invocation of a replacement sysctl handler. -/
structure HandlerResult where
  /-- The returned `int`. -/
  ret : Int
  /-- The value handed to `SYSCTL_OUT` for the caller, `none` if the macro was not
  reached. -/
  reported : Option Int
  deriving DecidableEq, Repr

/-- The C string left in `char procName[size]` by
`proc_name(pid, procName, sizeof(procName)); procName[size - 1] = 0;`:
the process name cut to what the buffer holds. -/
def procNameBuffer (processName : CString) (size : Nat) : CString :=
  processName.take (size - 1)

/-- Embedding of `phtm_sysctl_securelevel(oidp, arg1, arg2, req)`. -/
def phtm_sysctl_securelevel (env : HandlerEnv) (oidp _arg1 : Ref) (_arg2 : Int)
    (req : Ref) : HandlerResult :=
  if oidp = 0 ∨ req = 0 then { ret := EINVAL, reported := none }
  else if env.currentProcess = 0 then { ret := EINVAL, reported := none }
  else
    let spoofed_securelevel : Int := 1
    { ret := env.sysctlOut spoofed_securelevel, reported := some spoofed_securelevel }

/-! ## kern_vmm.cpp -/

/-- `PHTM::DetectedProcess`. -/
structure DetectedProcess where
  name : CString
  pid : Int
  deriving DecidableEq, Repr

/-- The table `VMM::filteredProcs[]`. -/
def filteredProcs : List DetectedProcess :=
  [ { name := "SoftwareUpdateNo".toList, pid := -1 },
    { name := "softwareupdated".toList, pid := -1 },
    { name := "com.apple.Mobile".toList, pid := -1 },
    { name := "osinstallersetup".toList, pid := -1 } ]

/-- The loop `for (size_t i = 0; i < num_filtered; ++i)` over the table entries still to
try: the value of `isFiltered` when the loop is left. -/
def isFilteredLoop (procName : CString) : List DetectedProcess → Bool
  | [] => false
  | entry :: rest =>
    if strcmp procName entry.name = 0 then true else isFilteredLoop procName rest

/-- Embedding of `phtm_sysctl_vmm_present(oidp, arg1, arg2, req)`. -/
def phtm_sysctl_vmm_present (env : HandlerEnv) (oidp _arg1 : Ref) (_arg2 : Int)
    (req : Ref) : HandlerResult :=
  if oidp = 0 ∨ req = 0 then { ret := EINVAL, reported := none }
  else if env.currentProcess = 0 then { ret := EINVAL, reported := none }
  else
    let procName := procNameBuffer env.processName env.MAX_PROC_NAME_LEN
    let isFiltered := isFilteredLoop procName filteredProcs
    let value_to_return : Int := if isFiltered then 1 else 0
    { ret := env.sysctlOut value_to_return, reported := some value_to_return }

/-- Embedding of `reRouteHvVmm(patcher)`: the returned flag and the kernel state
afterwards (`none` only if a scan ran out of fuel). -/
def reRouteHvVmm (env : PatchEnv) (k : Kernel) : Option (Bool × Kernel) :=
  if k.gSysctlChildrenAddr = 0 then some (false, k)
  else if k.gSysctlChildrenAddr < 0xffffff8000000000 then some (false, k)
  else
    let sysctlChildren : Ref := k.gSysctlChildrenAddr
    if sysctlChildren = 0 then some (false, k)
    else
      match scanLevel k "kern".toList (MAX_TRAVERSAL + 1) (k.slh_first sysctlChildren) 0 [] with
      | none => none
      | some (.limitExceeded, _) => some (false, k)
      | some (.notFound, _) => some (false, k)
      | some (.found kernNode, _) =>
        if (k.oid kernNode).oid_arg1 = 0 then some (false, k)
        else
          let kernChildren : Ref := (k.oid kernNode).oid_arg1
          if kernChildren = 0 then some (false, k)
          else
            match scanLevel k "hv_vmm_present".toList (MAX_TRAVERSAL + 1)
                (k.slh_first kernChildren) 0 [] with
            | none => none
            | some (.limitExceeded, _) => some (false, k)
            | some (.notFound, _) => some (false, k)
            | some (.found vmmNode, _) =>
              if (k.oid vmmNode).oid_handler = 0 then some (false, k)
              else
                let k1 : Kernel :=
                  { k with originalHvVmmHandler := (k.oid vmmNode).oid_handler,
                           trace := k.trace ++ [.saveOriginal (k.oid vmmNode).oid_handler] }
                let k2 := k1.kernelWriting true env.enableStatus
                if env.enableStatus ≠ KERN_SUCCESS then some (false, k2)
                else
                  let k3 := k2.setHandler vmmNode env.phtm_sysctl_vmm_present
                  let k4 := k3.kernelWriting false env.disableStatus
                  some (true, k4)

/-! ## Notions used to state the properties -/

/-- A list of characters is the content of a C string when no NUL occurs in it. -/
def IsCString (s : List Char) : Prop := ∀ c ∈ s, c ≠ Char.ofNat 0

instance (s : List Char) : Decidable (IsCString s) :=
  inferInstanceAs (Decidable (∀ c ∈ s, c ≠ Char.ofNat 0))

/-- The first `n` nodes of the sibling list that starts at `node`, following `oid_link`
until a null link. -/
def siblings (k : Kernel) : Nat → Ref → List Ref
  | 0, _ => []
  | n + 1, node => if node = 0 then [] else node :: siblings k n (k.oid node).oid_link

/-- The node's name is exactly `segment`. -/
def namedExactly (k : Kernel) (segment : CString) (node : Ref) : Bool :=
  decide ((k.oid node).oid_name = some segment)

/-- The property "the key contains one of the patterns as a substring", written with the
library notion of a contiguous sublist (`p <:+: s`: `s` is `a ++ p ++ b` for some `a`,
`b`).  A key without a C string contains no pattern. -/
def containsPattern (patterns : List CString) (key : Option CString) : Bool :=
  match key with
  | none => false
  | some s => patterns.any (fun p => decide (p <:+: s))

/-- The entries of a source dictionary whose key contains no filter pattern. -/
def keptEntries (h : Heap) (entries : List (Ref × Ref)) : List (Ref × Ref) :=
  entries.filter (fun e => !containsPattern filterSubstrings (h.getCStringNoCopy e.1))

/-- The entries of a source dictionary whose key contains some filter pattern. -/
def removedEntries (h : Heap) (entries : List (Ref × Ref)) : List (Ref × Ref) :=
  entries.filter (fun e => containsPattern filterSubstrings (h.getCStringNoCopy e.1))

/-- The number of references to the object `x` that a dictionary with these entries
holds: one for each occurrence as a key and one for each occurrence as a value. -/
def refs (x : Ref) (entries : List (Ref × Ref)) : Nat :=
  (entries.map Prod.fst).count x + (entries.map Prod.snd).count x

/-- The call gets as far as the original routine, which returns the non-null dictionary
`src` and leaves the heap `h0`. -/
structure ReturnsDict (env : KextEnv) (kextIdentifiers bundlePaths : Ref) (h : Heap)
    (src : Ref) (h0 : Heap) : Prop where
  proc : env.currentProcess ≠ 0
  orig : ∃ f, env.original = some f ∧ f kextIdentifiers bundlePaths h = (src, h0)
  nonnull : src ≠ 0

/-- `src` is a live dictionary with the given entries: fewer than `2 ^ 32` of them (the
count is an `unsigned int`), no key twice, every key a non-null string, every value
non-null. -/
structure SourceDict (h0 : Heap) (src : Ref) (entries : List (Ref × Ref)) : Prop where
  isDict : h0.object src = .OSDictionary entries
  live : 1 ≤ h0.retainCount src
  count : entries.length < 2 ^ 32
  nodupKeys : (entries.map Prod.fst).Nodup
  stringKeys : ∀ e ∈ entries, e.1 ≠ 0 ∧ h0.castOSString e.1 = e.1
  values : ∀ e ∈ entries, e.2 ≠ 0

/-- The addresses the allocator hands out for the destination and the iterator are not
those of objects in use: they differ from each other, from the source, and from every
key and value of the source; and the source does not contain itself. -/
structure FreshAddrs (src : Ref) (entries : List (Ref × Ref)) (dst it : Ref) : Prop where
  dst_ne_src : dst ≠ src
  it_ne_src : it ≠ src
  it_ne_dst : it ≠ dst
  dst_not_held : ∀ e ∈ entries, e.1 ≠ dst ∧ e.2 ≠ dst
  it_not_held : ∀ e ∈ entries, e.1 ≠ it ∧ e.2 ≠ it
  src_not_held : ∀ e ∈ entries, e.1 ≠ src ∧ e.2 ≠ src

/-- The state of the heap inside the filtering loop after the entries `done` of the
source have been visited, relative to the heap `h0` at loop entry. -/
structure LoopInv (h0 : Heap) (src dst : Ref) (all done : List (Ref × Ref)) (h : Heap) :
    Prop where
  src_obj : h.object src = .OSDictionary all
  dst_obj : h.object dst = .OSDictionary (keptEntries h0 done)
  frame : ∀ x, x ≠ dst → h.object x = h0.object x
  counts : ∀ x, h.retainCount x = h0.retainCount x + refs x (keptEntries h0 done)

/-- The result of the routine on the filtering path, relative to the heap `h0` left by
the original routine. -/
structure Filtered (h0 : Heap) (src : Ref) (entries : List (Ref × Ref)) (dst it : Ref)
    (r : KextResult) : Prop where
  ret : r.ret = dst
  released : r.released = [it, src]
  report : r.report = some { originalCount := entries.length,
                             filteredCount := (keptEntries h0 entries).length,
                             removedCount := (removedEntries h0 entries).length }
  dst_obj : r.heap.object dst = .OSDictionary (keptEntries h0 entries)
  frame : ∀ x, x ≠ dst → x ≠ it → r.heap.object x = h0.object x
  rc_it : r.heap.retainCount it = 0
  rc_dst : r.heap.retainCount dst = 1
  rc_src : r.heap.retainCount src = h0.retainCount src - 1
  rc_other : ∀ x, x ≠ dst → x ≠ it → x ≠ src →
    r.heap.retainCount x = h0.retainCount x + refs x (keptEntries h0 entries) -
      (if h0.retainCount src = 1 then refs x entries else 0)

/-- Where the two-level walk at the start of a reroute ends, before the handler of the
target is looked at. -/
inductive Located where
  /-- Both scans left by `break`: the node of the last segment. -/
  | target (node : Ref)
  /-- `gSysctlChildrenAddr` is null or below `0xffffff8000000000`. -/
  | rootRejected
  /-- A scan ran off the end of its list. -/
  | notFound
  /-- A scan hit the traversal limit. -/
  | limitExceeded
  /-- The `kern` node has a null `oid_arg1`. -/
  | noChildren
  deriving DecidableEq, Repr

/-- The walk shared by `reRouteSecureLevel` (`leaf` is `securelevel`) and `reRouteHvVmm`
(`leaf` is `hv_vmm_present`): root checks, scan for `kern`, scan of its children for
`leaf`.  It reads the kernel state and changes nothing.  `reRouteSecureLevel_eq` and
`reRouteHvVmm_eq` show that the two reroutes are this walk followed by the installation
step. -/
def locate (k : Kernel) (leaf : CString) : Option Located :=
  if k.gSysctlChildrenAddr = 0 then some .rootRejected
  else if k.gSysctlChildrenAddr < 0xffffff8000000000 then some .rootRejected
  else
    match scanLevel k "kern".toList (MAX_TRAVERSAL + 1)
        (k.slh_first k.gSysctlChildrenAddr) 0 [] with
    | none => none
    | some (.limitExceeded, _) => some .limitExceeded
    | some (.notFound, _) => some .notFound
    | some (.found kernNode, _) =>
      if (k.oid kernNode).oid_arg1 = 0 then some .noChildren
      else
        match scanLevel k leaf (MAX_TRAVERSAL + 1)
            (k.slh_first (k.oid kernNode).oid_arg1) 0 [] with
        | none => none
        | some (.limitExceeded, _) => some .limitExceeded
        | some (.notFound, _) => some .notFound
        | some (.found node, _) => some (.target node)

/-- The installation step of `reRouteSecureLevel` on the located node. -/
def installSecureLevel (env : PatchEnv) (k : Kernel) (node : Ref) : Bool × Kernel :=
  if (k.oid node).oid_handler = 0 then (false, k)
  else
    let k1 : Kernel :=
      { k with originalSecureLevelHandler := (k.oid node).oid_handler,
               trace := k.trace ++ [.saveOriginal (k.oid node).oid_handler] }
    let k2 := k1.kernelWriting true env.enableStatus
    if env.enableStatus ≠ KERN_SUCCESS then (false, k2)
    else
      let k3 := k2.setHandler node env.phtm_sysctl_securelevel
      let k4 := k3.kernelWriting false env.disableStatus
      (true, k4)

/-- The installation step of `reRouteHvVmm` on the located node. -/
def installHvVmm (env : PatchEnv) (k : Kernel) (node : Ref) : Bool × Kernel :=
  if (k.oid node).oid_handler = 0 then (false, k)
  else
    let k1 : Kernel :=
      { k with originalHvVmmHandler := (k.oid node).oid_handler,
               trace := k.trace ++ [.saveOriginal (k.oid node).oid_handler] }
    let k2 := k1.kernelWriting true env.enableStatus
    if env.enableStatus ≠ KERN_SUCCESS then (false, k2)
    else
      let k3 := k2.setHandler node env.phtm_sysctl_vmm_present
      let k4 := k3.kernelWriting false env.disableStatus
      (true, k4)

/-- What a reroute does once the walk has ended. -/
def afterLocate (install : Ref → Bool × Kernel) (k : Kernel) : Located → Bool × Kernel
  | .target node => install node
  | _ => (false, k)

/-- The three path segments the reroutes look for. -/
def segments : List CString :=
  ["kern".toList, "securelevel".toList, "hv_vmm_present".toList]

/-- The node has no name, or its name is a C string. -/
def hasCStringName (k : Kernel) (node : Ref) : Bool :=
  match (k.oid node).oid_name with
  | none => true
  | some s => decide (IsCString s)

/-- The saved-original slot of `reRouteSecureLevel` after a run, if the run ended. -/
def savedSecureLevel (r : Option (Bool × Kernel)) : Option Ref :=
  r.map (fun x => x.2.originalSecureLevelHandler)

/-- The saved-original slot of `reRouteHvVmm` after a run, if the run ended. -/
def savedHvVmm (r : Option (Bool × Kernel)) : Option Ref :=
  r.map (fun x => x.2.originalHvVmmHandler)

/-- Run a reroute on the state left by an earlier run of it. -/
def again (reroute : Kernel → Option (Bool × Kernel)) (r : Option (Bool × Kernel)) :
    Option (Bool × Kernel) :=
  r.bind (fun x => reroute x.2)

/-- Two kernel states hold the same tree: the same root address, list heads, links,
names and argument slots.  Handlers, saved originals and traces may differ. -/
structure SameTree (k k1 : Kernel) : Prop where
  root : k1.gSysctlChildrenAddr = k.gSysctlChildrenAddr
  heads : ∀ a, k1.slh_first a = k.slh_first a
  links : ∀ a, (k1.oid a).oid_link = (k.oid a).oid_link
  names : ∀ a, (k1.oid a).oid_name = (k.oid a).oid_name
  args : ∀ a, (k1.oid a).oid_arg1 = (k.oid a).oid_arg1

/-! ## Concrete inputs used to exercise the statements -/

/-- A heap with a source dictionary at address 100 holding the three entries
`org.Carnations.Foo ↦ 11`, `com.example.Bar ↦ 12`, `as.vit9696.Baz ↦ 13`; the key
strings live at addresses 1, 2, 3.  Every object has retain count 1. -/
def heap3 : Heap where
  object := fun r =>
    if r = 100 then .OSDictionary [(1, 11), (2, 12), (3, 13)]
    else if r = 1 then .OSString (some "org.Carnations.Foo".toList)
    else if r = 2 then .OSString (some "com.example.Bar".toList)
    else if r = 3 then .OSString (some "as.vit9696.Baz".toList)
    else .other
  retainCount := fun r =>
    if r = 100 ∨ (1 ≤ r ∧ r ≤ 3) ∨ (11 ≤ r ∧ r ≤ 13) then 1 else 0

/-- A heap with a source dictionary at address 100 holding five entries, two of which
(keys at addresses 2 and 5) carry a filtered bundle identifier, one of them not at the
start of the key. -/
def heap5 : Heap where
  object := fun r =>
    if r = 100 then .OSDictionary [(1, 11), (2, 12), (3, 13), (4, 14), (5, 15)]
    else if r = 1 then .OSString (some "com.apple.iokit.IOUSBFamily".toList)
    else if r = 2 then .OSString (some "as.vit9696.Lilu".toList)
    else if r = 3 then .OSString (some "com.apple.kec.corecrypto".toList)
    else if r = 4 then .OSString (some "com.example.Bar".toList)
    else if r = 5 then .OSString (some "x.org.acidanthera.kext".toList)
    else .other
  retainCount := fun r =>
    if r = 100 ∨ (1 ≤ r ∧ r ≤ 5) ∨ (11 ≤ r ∧ r ≤ 15) then 1 else 0

/-- An invocation context: a current process exists, the saved original routine
returns the dictionary at address 100 without touching the heap, and the allocator
hands out the given addresses for the destination dictionary and for the iterator. -/
def kextEnv (newDict newIter : Ref) : KextEnv where
  currentProcess := 7
  original := some (fun _ _ h => (100, h))
  newDict := newDict
  newIter := newIter

/-- A handler-free description of a node, used to build example trees. -/
def mkOid (link : Ref) (name : String) (arg1 handler : Ref) : sysctl_oid where
  oid_link := link
  oid_name := some name.toList
  oid_arg1 := arg1
  oid_handler := handler

/-- A small sysctl tree.  The root list, at `0xffffff8000100000`, holds the nodes
`vm`, `kern`, `debug` (addresses `0x10`, `0x20`, `0x30` above `0xffffff8000200000`); the
child list of `kern`, at `0xffffff8000100100`, holds `ostype`, `securelevel` and
`hv_vmm_present` at the offsets `0x40`, `0x50`, `0x60`, the last two with the given
handlers.  Nothing has been saved or traced yet. -/
def tree (secureLevelHandler hvVmmHandler : Ref) : Kernel where
  gSysctlChildrenAddr := 0xffffff8000100000
  slh_first := fun a =>
    if a = 0xffffff8000100000 then 0xffffff8000200010
    else if a = 0xffffff8000100100 then 0xffffff8000200040
    else 0
  oid := fun a =>
    if a = 0xffffff8000200010 then mkOid 0xffffff8000200020 "vm" 0 0x4000
    else if a = 0xffffff8000200020 then mkOid 0xffffff8000200030 "kern" 0xffffff8000100100 0
    else if a = 0xffffff8000200030 then mkOid 0 "debug" 0 0x4100
    else if a = 0xffffff8000200040 then mkOid 0xffffff8000200050 "ostype" 0 0x4200
    else if a = 0xffffff8000200050 then
      mkOid 0xffffff8000200060 "securelevel" 0 secureLevelHandler
    else if a = 0xffffff8000200060 then mkOid 0 "hv_vmm_present" 0 hvVmmHandler
    else mkOid 0 "" 0 0
  originalSecureLevelHandler := 0
  originalHvVmmHandler := 0
  trace := []

/-- The small tree with the kernel's own handlers at `0x5000` and `0x6000`. -/
def treeK : Kernel := tree 0x5000 0x6000

/-- A tree whose root list is cyclic: its only node, named `vm`, links to itself. -/
def loopK : Kernel where
  gSysctlChildrenAddr := 0xffffff8000100000
  slh_first := fun a => if a = 0xffffff8000100000 then 0xffffff8000200010 else 0
  oid := fun _ => mkOid 0xffffff8000200010 "vm" 0 0x4000
  originalSecureLevelHandler := 0
  originalHvVmmHandler := 0
  trace := []

/-- Surroundings in which both write-protection calls succeed; the replacement
handlers live at `0x9000` and `0x9100`. -/
def patchEnv : PatchEnv where
  enableStatus := KERN_SUCCESS
  disableStatus := KERN_SUCCESS
  phtm_sysctl_securelevel := 0x9000
  phtm_sysctl_vmm_present := 0x9100

/-- An invocation context of a sysctl handler: a current process with the given pid and
name exists, the name buffer has 256 bytes, and the copy-out to the caller succeeds. -/
def handlerEnv (pid : Int) (name : String) : HandlerEnv where
  currentProcess := 7
  procPid := pid
  processName := name.toList
  MAX_PROC_NAME_LEN := 256
  sysctlOut := fun _ => 0

/-- Surroundings with the given statuses of the write-enable and the write-disable
call; the replacement handlers live at `0x9000` and `0x9100`. -/
def patchEnvWith (enableStatus disableStatus : kern_return_t) : PatchEnv where
  enableStatus := enableStatus
  disableStatus := disableStatus
  phtm_sysctl_securelevel := 0x9000
  phtm_sysctl_vmm_present := 0x9100

/-- An invocation context of a sysctl handler in which `current_proc()` gives null. -/
def handlerEnvNoProc : HandlerEnv where
  currentProcess := 0
  procPid := 0
  processName := []
  MAX_PROC_NAME_LEN := 256
  sysctlOut := fun _ => 0

/-- An invocation context of the kext-info routine in which `current_proc()` gives
null; the saved original routine returns the dictionary at address 100. -/
def kextEnvNoProc : KextEnv where
  currentProcess := 0
  original := some (fun _ _ h => (100, h))
  newDict := 200
  newIter := 300

/-- A tree without the leaves the reroutes look for.  The root list, at
`0xffffff8000100000`, holds `vm`, a node with the given name and child-list pointer,
and `debug`; the list at `0xffffff8000100100` holds the single node `ostype`. -/
def sparseK (kernName : String) (kernArg : Ref) : Kernel where
  gSysctlChildrenAddr := 0xffffff8000100000
  slh_first := fun a =>
    if a = 0xffffff8000100000 then 0xffffff8000200010
    else if a = 0xffffff8000100100 then 0xffffff8000200040
    else 0
  oid := fun a =>
    if a = 0xffffff8000200010 then mkOid 0xffffff8000200020 "vm" 0 0x4000
    else if a = 0xffffff8000200020 then mkOid 0xffffff8000200030 kernName kernArg 0
    else if a = 0xffffff8000200030 then mkOid 0 "debug" 0 0x4100
    else if a = 0xffffff8000200040 then mkOid 0 "ostype" 0 0x4200
    else mkOid 0 "" 0 0
  originalSecureLevelHandler := 0
  originalHvVmmHandler := 0
  trace := []

/-- The small tree of `treeK` with its root list head at the address
`0xffffff8000100001`, which is in the kernel range but not a multiple of 8. -/
def oddRootK : Kernel where
  gSysctlChildrenAddr := 0xffffff8000100001
  slh_first := fun a =>
    if a = 0xffffff8000100001 then 0xffffff8000200010
    else if a = 0xffffff8000100100 then 0xffffff8000200040
    else 0
  oid := treeK.oid
  originalSecureLevelHandler := 0
  originalHvVmmHandler := 0
  trace := []

/-- The loop of `windowScan` together with the offsets `j` at which it called
`strncmp(bundleIDCStr + j, filter, filterLen)`, in call order. -/
def windowScanLog (bundleIDCStr filter : CString) (filterLen : Nat) :
    Nat → Nat → Bool × List Nat
  | _, 0 => (false, [])
  | j, n + 1 =>
    if strncmp (bundleIDCStr.drop j) filter filterLen = 0 then (true, [j])
    else ((windowScanLog bundleIDCStr filter filterLen (j + 1) n).1,
          j :: (windowScanLog bundleIDCStr filter filterLen (j + 1) n).2)

/-- The test `foundFilter` together with the offsets of the windows it compared. -/
def foundFilterLog (bundleIDCStr filter : CString) : Bool × List Nat :=
  let bundleLen := strlen bundleIDCStr
  let filterLen := strlen filter
  if bundleLen ≥ filterLen then
    windowScanLog bundleIDCStr filter filterLen 0 (bundleLen - filterLen + 1)
  else (false, [])

/-! ## The address validator -/

/-- C1 (as the code behaves): `isValidKernelAddress` is false at every address.  The
upper bound in the source is `0xfffffffffffffff` (fifteen digits), which lies below the
lower bound `0xffffff8000000000`, so no address passes both comparisons: in particular
the aligned kernel addresses `0xffffff8000000000` and `0xfffffffffffffff8` are rejected,
where the canonical-range reading of the function says they are accepted. -/
theorem isValidKernelAddress_always_false :
    (∀ addr : Nat, isValidKernelAddress addr = false) ∧
      isValidKernelAddress 0xffffff8000000000 = false ∧
      isValidKernelAddress 0xfffffffffffffff8 = false := by
  have h : ∀ addr : Nat, isValidKernelAddress addr = false := by
    intro addr
    simp only [isValidKernelAddress, Bool.and_eq_false_iff, decide_eq_false_iff_not]
    omega
  exact ⟨h, h _, h _⟩

/-! ## Lemmas on the string routines, the heap and the filtering loop -/

theorem char_diff_ne_zero {a b : Char} (h : a ≠ b) : (a.toNat : Int) - (b.toNat : Int) ≠ 0 := by
  intro h0
  apply h
  have h1 : a.toNat = b.toNat := by omega
  apply Char.ext
  apply UInt32.ext
  exact h1

theorem char_toNat_ne_zero {a : Char} (h : a ≠ Char.ofNat 0) : (a.toNat : Int) ≠ 0 := by
  intro h0
  apply h
  have h1 : a.toNat = 0 := by omega
  apply Char.ext
  apply UInt32.ext
  exact h1

/-- Within the length of both strings `strncmp` is zero exactly when the compared
windows agree. -/
theorem strncmp_eq_zero_iff (n : Nat) : ∀ (a b : CString), n ≤ a.length → n ≤ b.length →
    (strncmp a b n = 0 ↔ a.take n = b.take n) := by
  induction n with
  | zero => intro a b _ _; simp [strncmp]
  | succ n ih =>
    intro a b ha hb
    cases a with
    | nil => simp at ha
    | cons x xs =>
      cases b with
      | nil => simp at hb
      | cons y ys =>
        simp only [List.length_cons, Nat.add_le_add_iff_right] at ha hb
        by_cases hxy : x = y
        · subst hxy
          simp [strncmp, ih xs ys ha hb]
        · simp [strncmp, hxy, char_diff_ne_zero hxy]

theorem strcmp_eq_zero_iff : ∀ (a b : CString), IsCString a → IsCString b →
    (strcmp a b = 0 ↔ a = b) := by
  intro a
  induction a with
  | nil =>
    intro b _ hb
    cases b with
    | nil => simp [strcmp]
    | cons y ys =>
      have hy : (y.toNat : Int) ≠ 0 := char_toNat_ne_zero (hb y (by simp))
      simp [strcmp]; omega
  | cons x xs ih =>
    intro b ha hb
    cases b with
    | nil =>
      have hx : (x.toNat : Int) ≠ 0 := char_toNat_ne_zero (ha x (by simp))
      simp [strcmp]; omega
    | cons y ys =>
      have ha2 : IsCString xs := fun c hc => ha c (List.mem_cons_of_mem _ hc)
      have hb2 : IsCString ys := fun c hc => hb c (List.mem_cons_of_mem _ hc)
      by_cases hxy : x = y
      · subst hxy
        simp [strcmp, ih ys ha2 hb2]
      · simp [strcmp, hxy, char_diff_ne_zero hxy]

theorem windowScan_eq_true_iff (key pat : CString) : ∀ (n j : Nat),
    j + n + pat.length ≤ key.length + 1 →
    (windowScan key pat pat.length j n = true ↔
      ∃ i, j ≤ i ∧ i < j + n ∧ (key.drop i).take pat.length = pat) := by
  intro n
  induction n with
  | zero =>
    intro j _
    simp only [windowScan, Nat.add_zero]
    constructor
    · intro h; cases h
    · rintro ⟨i, h1, h2, _⟩
      omega
  | succ n ih =>
    intro j hj
    have hlen : pat.length ≤ (key.drop j).length := by simp; omega
    have hcmp := strncmp_eq_zero_iff pat.length (key.drop j) pat hlen (Nat.le_refl _)
    rw [List.take_length] at hcmp
    unfold windowScan
    by_cases h0 : strncmp (key.drop j) pat pat.length = 0
    · simp only [h0, if_true, true_iff]
      exact ⟨j, Nat.le_refl _, by omega, hcmp.mp h0⟩
    · simp only [h0, if_false]
      rw [ih (j + 1) (by omega)]
      constructor
      · rintro ⟨i, h1, h2, h3⟩
        exact ⟨i, by omega, by omega, h3⟩
      · rintro ⟨i, h1, h2, h3⟩
        have hne : i ≠ j := by
          intro hij
          subst hij
          exact h0 (hcmp.mpr h3)
        exact ⟨i, by omega, by omega, h3⟩

theorem occurs_iff_window (pat key : List Char) :
    pat <:+: key ↔ ∃ i, i + pat.length ≤ key.length ∧ (key.drop i).take pat.length = pat := by
  constructor
  · rintro ⟨s, t, rfl⟩
    refine ⟨s.length, by simp, ?_⟩
    simp [List.append_assoc]
  · rintro ⟨i, _, h⟩
    refine ⟨key.take i, (key.drop i).drop pat.length, ?_⟩
    have h2 : pat ++ (key.drop i).drop pat.length = key.drop i := by
      conv_lhs => rw [← h]
      simp only [List.take_append_drop, List.length_take]
      have : min pat.length (key.drop i).length = pat.length := by
        rw [List.length_drop]; omega
      rw [this, List.take_append_drop]
    rw [List.append_assoc, h2, List.take_append_drop]

/-- The windowed scan finds a filter exactly when the filter occurs in the key as a
contiguous block of characters. -/
theorem foundFilter_iff_occurs (key pat : CString) :
    foundFilter key pat = true ↔ pat <:+: key := by
  rw [occurs_iff_window]
  unfold foundFilter strlen
  by_cases hlen : key.length ≥ pat.length
  · simp only [hlen, if_true]
    rw [windowScan_eq_true_iff key pat _ 0 (by omega)]
    constructor
    · rintro ⟨i, _, h2, h3⟩
      exact ⟨i, by omega, h3⟩
    · rintro ⟨i, h1, h3⟩
      exact ⟨i, Nat.zero_le _, by omega, h3⟩
  · simp only [hlen, if_false]
    constructor
    · intro h; cases h
    · rintro ⟨i, h1, _⟩
      omega

theorem matchFilters_isSome_iff (key : CString) (filters : List CString) :
    (matchFilters key filters).isSome = true ↔ ∃ p ∈ filters, p <:+: key := by
  induction filters with
  | nil => simp [matchFilters]
  | cons f rest ih =>
    unfold matchFilters
    by_cases hf : foundFilter key f = true
    · simp only [hf, if_true, Option.isSome_some, true_iff]
      exact ⟨f, by simp, (foundFilter_iff_occurs key f).mp hf⟩
    · rw [Bool.not_eq_true] at hf
      simp only [hf, Bool.false_eq_true, if_false]
      rw [ih]
      rw [← Bool.not_eq_true] at hf
      have hn : ¬ f <:+: key := fun h => hf ((foundFilter_iff_occurs key f).mpr h)
      constructor
      · rintro ⟨p, hp, h⟩
        exact ⟨p, List.mem_cons_of_mem _ hp, h⟩
      · rintro ⟨p, hp, h⟩
        rcases List.mem_cons.mp hp with rfl | hp
        · exact absurd h hn
        · exact ⟨p, hp, h⟩

theorem shouldFilterThisKext_eq (c : Option CString) :
    shouldFilterThisKext c = containsPattern filterSubstrings c := by
  cases c with
  | none => rfl
  | some s =>
    simp only [shouldFilterThisKext, containsPattern]
    rw [Bool.eq_iff_iff, matchFilters_isSome_iff]
    simp [List.any_eq_true]

@[simp]
theorem Heap.retain_object (h : Heap) (r : Ref) : (h.retain r).object = h.object := rfl

@[simp]
theorem Heap.drop_object (h : Heap) (r : Ref) : (h.drop r).object = h.object := rfl

theorem Heap.retain_retainCount (h : Heap) (r x : Ref) :
    (h.retain r).retainCount x = h.retainCount x + (if x = r then 1 else 0) := by
  unfold Heap.retain
  by_cases hx : x = r
  · subst hx; simp
  · simp [hx]

theorem Heap.drop_retainCount (h : Heap) (r x : Ref) :
    (h.drop r).retainCount x = h.retainCount x - (if x = r then 1 else 0) := by
  unfold Heap.drop
  by_cases hx : x = r
  · subst hx; simp
  · simp [hx]

theorem Heap.flush_object (es : List (Ref × Ref)) : ∀ h : Heap, (h.flush es).object = h.object := by
  induction es with
  | nil => intro h; rfl
  | cons e es ih => intro h; simp [Heap.flush, ih, Heap.drop_object]

theorem refs_nil (x : Ref) : refs x [] = 0 := rfl

theorem refs_cons (x : Ref) (e : Ref × Ref) (es : List (Ref × Ref)) :
    refs x (e :: es) = (if x = e.1 then 1 else 0) + (if x = e.2 then 1 else 0) + refs x es := by
  unfold refs
  simp only [List.map_cons, List.count_cons, beq_iff_eq]
  have h1 : (e.1 = x) = (x = e.1) := propext eq_comm
  have h2 : (e.2 = x) = (x = e.2) := propext eq_comm
  simp only [h1, h2]
  omega

theorem refs_append (x : Ref) (as bs : List (Ref × Ref)) :
    refs x (as ++ bs) = refs x as + refs x bs := by
  unfold refs
  simp only [List.map_append, List.count_append]
  omega

theorem Heap.flush_retainCount (es : List (Ref × Ref)) : ∀ (h : Heap) (x : Ref),
    (h.flush es).retainCount x = h.retainCount x - refs x es := by
  induction es with
  | nil => intro h x; simp [Heap.flush, refs_nil]
  | cons e es ih =>
    intro h x
    simp only [Heap.flush, ih, Heap.drop_retainCount, refs_cons]
    omega

theorem lookup_eq_none_of_not_mem (k : Ref) : ∀ (l : List (Ref × Ref)),
    k ∉ l.map Prod.fst → l.lookup k = none := by
  intro l
  induction l with
  | nil => intro _; rfl
  | cons e es ih =>
    intro hk
    obtain ⟨a, b⟩ := e
    simp only [List.map_cons, List.mem_cons, not_or] at hk
    have hne : (k == a) = false := by simpa using hk.1
    simp only [List.lookup, hne]
    exact ih hk.2

theorem lookup_eq_some_of_mem (k v : Ref) : ∀ (l : List (Ref × Ref)),
    (l.map Prod.fst).Nodup → (k, v) ∈ l → l.lookup k = some v := by
  intro l
  induction l with
  | nil => intro _ h; cases h
  | cons e es ih =>
    intro hnd hmem
    obtain ⟨a, b⟩ := e
    simp only [List.map_cons, List.nodup_cons] at hnd
    rcases List.mem_cons.mp hmem with heq | hin
    · cases heq
      simp [List.lookup]
    · have hne : (k == a) = false := by
        have : k ≠ a := by
          rintro rfl
          exact hnd.1 (List.mem_map_of_mem Prod.fst hin)
        simpa using this
      simp only [List.lookup, hne]
      exact ih hnd.2 hin

theorem filterLoop_spec (h0 : Heap) (src dst : Ref) (all : List (Ref × Ref))
    (hnd : (all.map Prod.fst).Nodup)
    (hkeys : ∀ e ∈ all, e.1 ≠ 0 ∧ e.1 ≠ dst ∧ ∃ c, h0.object e.1 = .OSString c)
    (hvals : ∀ e ∈ all, e.2 ≠ 0) :
    ∀ (rest done : List (Ref × Ref)) (h : Heap) (removedCount : Nat),
      all = done ++ rest → LoopInv h0 src dst all done h →
      LoopInv h0 src dst all all (filterLoop src dst (rest.map Prod.fst) h removedCount).1 ∧
      (filterLoop src dst (rest.map Prod.fst) h removedCount).2 % 2 ^ 32 =
        (removedCount + (removedEntries h0 rest).length) % 2 ^ 32 := by
  intro rest
  induction rest with
  | nil =>
    intro done h removedCount hall inv
    simp only [List.append_nil] at hall
    subst hall
    simp [filterLoop, removedEntries, inv]
  | cons e rest ih =>
    intro done h removedCount hall inv
    have hmem : e ∈ all := by rw [hall]; simp
    obtain ⟨hk0, hkd, c, hkc⟩ := hkeys e hmem
    have hv0 := hvals e hmem
    have hobj : h.object e.1 = .OSString c := by rw [inv.frame e.1 hkd, hkc]
    have hcast : h.castOSString e.1 = e.1 := by simp [Heap.castOSString, hobj]
    have hget : h.getObject src e.1 = e.2 := by
      simp [Heap.getObject, inv.src_obj, lookup_eq_some_of_mem e.1 e.2 all hnd hmem]
    have hcstr : h.getCStringNoCopy e.1 = h0.getCStringNoCopy e.1 := by
      simp [Heap.getCStringNoCopy, hobj, hkc]
    have hall2 : all = (done ++ [e]) ++ rest := by rw [hall]; simp
    simp only [List.map_cons, filterLoop, hk0, if_false, hcast, ne_eq, not_false_eq_true, if_true,
      hget, hv0, hcstr, shouldFilterThisKext_eq]
    by_cases hf : containsPattern filterSubstrings (h0.getCStringNoCopy e.1) = true
    · simp only [hf, if_true]
      have inv2 : LoopInv h0 src dst all (done ++ [e]) h := by
        have hk : keptEntries h0 (done ++ [e]) = keptEntries h0 done := by
          simp [keptEntries, hf]
        exact ⟨inv.src_obj, by rw [hk]; exact inv.dst_obj, inv.frame, by rw [hk]; exact inv.counts⟩
      obtain ⟨i1, i2⟩ := ih (done ++ [e]) h ((removedCount + 1) % 2 ^ 32) hall2 inv2
      refine ⟨i1, ?_⟩
      rw [i2]
      have hr : removedEntries h0 (e :: rest) = e :: removedEntries h0 rest := by
        simp [removedEntries, hf]
      rw [hr, List.length_cons]
      omega
    · rw [Bool.not_eq_true] at hf
      simp only [hf, Bool.false_eq_true, if_false]
      have hk : keptEntries h0 (done ++ [e]) = keptEntries h0 done ++ [e] := by
        simp [keptEntries, hf]
      have hnotin : e.1 ∉ (keptEntries h0 done).map Prod.fst := by
        intro hin
        rw [hall, List.map_append, List.nodup_append] at hnd
        have h1 : e.1 ∈ done.map Prod.fst := by
          obtain ⟨a, ha, hae⟩ := List.mem_map.mp hin
          exact List.mem_map.mpr ⟨a, (List.mem_filter.mp ha).1, hae⟩
        exact hnd.2.2 h1 (by simp)
      have hdne : dst ≠ src := by
        intro hds
        have h1 := inv.dst_obj
        rw [hds, inv.src_obj] at h1
        -- the destination and the source hold different objects only by address
        have h2 : all = keptEntries h0 done := by injection h1
        apply hnotin
        rw [← h2]
        exact List.mem_map_of_mem Prod.fst hmem
      have inv2 : LoopInv h0 src dst all (done ++ [e]) (h.setObject dst e.1 e.2) := by
        have hset : h.setObject dst e.1 e.2 =
            { object := Function.update h.object dst (.OSDictionary (keptEntries h0 done ++ [e])),
              retainCount := ((h.retain e.1).retain e.2).retainCount } := by
          simp [Heap.setObject, inv.dst_obj, lookup_eq_none_of_not_mem e.1 _ hnotin,
            Heap.retain_object]
        rw [hset]
        refine ⟨?_, ?_, ?_, ?_⟩
        · simp [Function.update, Ne.symm hdne, inv.src_obj]
        · rw [hk]; simp
        · intro x hx
          simp [Function.update, hx, inv.frame x hx]
        · intro x
          rw [hk]
          simp only [Heap.retain_retainCount, inv.counts x, refs_append, refs_cons, refs_nil]
          omega
      obtain ⟨i1, i2⟩ := ih (done ++ [e]) _ removedCount hall2 inv2
      refine ⟨i1, ?_⟩
      rw [i2]
      have hr : removedEntries h0 (e :: rest) = removedEntries h0 rest := by
        simp [removedEntries, hf]
      rw [hr]

theorem refs_eq_zero (x : Ref) (es : List (Ref × Ref))
    (h : ∀ e ∈ es, e.1 ≠ x ∧ e.2 ≠ x) : refs x es = 0 := by
  induction es with
  | nil => rfl
  | cons e es ih =>
    have h1 := h e (by simp)
    rw [refs_cons, ih (fun a ha => h a (List.mem_cons_of_mem _ ha))]
    simp [Ne.symm h1.1, Ne.symm h1.2]

theorem refs_pos_of_mem (e : Ref × Ref) (es : List (Ref × Ref)) (h : e ∈ es) :
    1 ≤ refs e.1 es ∧ 1 ≤ refs e.2 es := by
  induction es with
  | nil => cases h
  | cons a es ih =>
    rw [refs_cons, refs_cons]
    rcases List.mem_cons.mp h with rfl | h
    · simp; omega
    · have := ih h
      omega

theorem keptEntries_congr (h h0 : Heap) (es : List (Ref × Ref))
    (hobj : ∀ e ∈ es, h.object e.1 = h0.object e.1) :
    keptEntries h es = keptEntries h0 es := by
  unfold keptEntries
  apply List.filter_congr
  intro e he
  simp [Heap.getCStringNoCopy, hobj e he]

theorem removedEntries_congr (h h0 : Heap) (es : List (Ref × Ref))
    (hobj : ∀ e ∈ es, h.object e.1 = h0.object e.1) :
    removedEntries h es = removedEntries h0 es := by
  unfold removedEntries
  apply List.filter_congr
  intro e he
  simp [Heap.getCStringNoCopy, hobj e he]

theorem kept_add_removed (h : Heap) (es : List (Ref × Ref)) :
    (keptEntries h es).length + (removedEntries h es).length = es.length := by
  induction es with
  | nil => rfl
  | cons e es ih =>
    unfold keptEntries removedEntries at *
    by_cases hf : containsPattern filterSubstrings (h.getCStringNoCopy e.1) = true
    · simp [List.filter_cons, hf]; omega
    · rw [Bool.not_eq_true] at hf
      simp [List.filter_cons, hf]; omega

theorem filterLoop_removed_lt (src dst : Ref) : ∀ (keys : List Ref) (h : Heap) (n : Nat),
    n < 2 ^ 32 → (filterLoop src dst keys h n).2 < 2 ^ 32 := by
  intro keys
  induction keys with
  | nil => intro h n hn; simpa [filterLoop] using hn
  | cons k ks ih =>
    intro h n hn
    unfold filterLoop
    by_cases h1 : k = 0
    · simpa [h1] using hn
    · by_cases h2 : h.castOSString k = 0
      · simp only [h1, h2, ne_eq, not_true_eq_false, if_false]
        exact ih _ _ hn
      · by_cases h3 : h.getObject src (h.castOSString k) = 0
        · simp only [h1, h2, h3, ne_eq, not_true_eq_false, not_false_eq_true, if_true, if_false]
          exact ih _ _ hn
        · by_cases h4 : shouldFilterThisKext (h.getCStringNoCopy (h.castOSString k)) = true
          · simp only [h1, h2, h3, h4, ne_eq, not_false_eq_true, if_true, if_false]
            exact ih _ _ (Nat.mod_lt _ (by norm_num))
          · simp only [h1, h2, h3, h4, ne_eq, not_false_eq_true, if_true, if_false]
            exact ih _ _ hn

theorem filtered_path (env : KextEnv) (kextIdentifiers bundlePaths : Ref) (h : Heap)
    (src : Ref) (h0 : Heap) (entries : List (Ref × Ref))
    (hret : ReturnsDict env kextIdentifiers bundlePaths h src h0)
    (hsrc : SourceDict h0 src entries)
    (hdst : env.newDict ≠ 0) (hit : env.newIter ≠ 0)
    (hfresh : FreshAddrs src entries env.newDict env.newIter) :
    Filtered h0 src entries env.newDict env.newIter
      (phtm_OSKext_copyLoadedKextInfo env kextIdentifiers bundlePaths h) := by
  obtain ⟨hproc, ⟨f, hf, hfr⟩, hnn⟩ := hret
  obtain ⟨hdict, hlive, hcount, hnd, hkeys0, hvals⟩ := hsrc
  have hkeys : ∀ e ∈ entries, e.1 ≠ 0 ∧ ∃ c, h0.object e.1 = .OSString c := by
    intro e he
    obtain ⟨hk0, hk1⟩ := hkeys0 e he
    refine ⟨hk0, ?_⟩
    unfold Heap.castOSString at hk1
    cases hobj : h0.object e.1 with
    | OSString c => exact ⟨c, rfl⟩
    | OSDictionary es => rw [hobj] at hk1; exact absurd hk1.symm hk0
    | OSCollectionIterator c => rw [hobj] at hk1; exact absurd hk1.symm hk0
    | other => rw [hobj] at hk1; exact absurd hk1.symm hk0
  obtain ⟨hds, his, hid, hdh, hih, hsh⟩ := hfresh
  -- the heap after the two allocations
  let h1 : Heap := (h0.withCapacity env.newDict
    (if h0.getCount src > 0 then h0.getCount src else 1)).2
  let h2 : Heap := (h1.withCollection env.newIter src).2
  have h2obj : ∀ x, x ≠ env.newDict → x ≠ env.newIter → h2.object x = h0.object x := by
    intro x hx1 hx2
    simp [h2, h1, Heap.withCollection, Heap.withCapacity, hdst, hit, Function.update, hx1, hx2]
  have h2dst : h2.object env.newDict = .OSDictionary [] := by
    simp [h2, h1, Heap.withCollection, Heap.withCapacity, hdst, hit, Function.update, Ne.symm hid]
  have h2it : h2.object env.newIter = .OSCollectionIterator src := by
    simp [h2, h1, Heap.withCollection, Heap.withCapacity, hdst, hit, Function.update]
  have h2rc : ∀ x, h2.retainCount x =
      if x = env.newIter then 1 else if x = env.newDict then 1
      else if x = src then h0.retainCount src + 1 else h0.retainCount x := by
    intro x
    simp only [h2, h1, Heap.withCollection, Heap.withCapacity, hdst, hit, if_false,
      Heap.retain, Function.update, eq_rec_constant, dite_eq_ite]
    by_cases hx1 : x = env.newIter
    · simp [hx1]
    · by_cases hx2 : x = env.newDict
      · subst hx2; simp [hx1, hds]
      · by_cases hx3 : x = src
        · subst hx3; simp [hx1, hx2, Ne.symm hds]
        · simp [hx1, hx2, hx3]
  have h2src : h2.object src = .OSDictionary entries := by
    rw [h2obj src (Ne.symm hds) (Ne.symm his), hdict]
  have hkeys2 : ∀ e ∈ entries, e.1 ≠ 0 ∧ e.1 ≠ env.newDict ∧ ∃ c, h2.object e.1 = .OSString c := by
    intro e he
    obtain ⟨c, hc⟩ := (hkeys e he).2
    exact ⟨(hkeys e he).1, (hdh e he).1, c, by rw [h2obj e.1 (hdh e he).1 (hih e he).1, hc]⟩
  have inv0 : LoopInv h2 src env.newDict entries [] h2 :=
    ⟨h2src, by simpa [keptEntries] using h2dst, fun _ _ => rfl, fun x => by simp [keptEntries, refs_nil]⟩
  obtain ⟨inv, hrem⟩ := filterLoop_spec h2 src env.newDict entries hnd hkeys2 hvals
    entries [] h2 0 (by simp) inv0
  have hk2 : keptEntries h2 entries = keptEntries h0 entries :=
    keptEntries_congr h2 h0 entries (fun e he => h2obj e.1 (hdh e he).1 (hih e he).1)
  have hr2 : removedEntries h2 entries = removedEntries h0 entries :=
    removedEntries_congr h2 h0 entries (fun e he => h2obj e.1 (hdh e he).1 (hih e he).1)
  obtain ⟨i_src, i_dst, i_frame, i_counts⟩ := inv
  rw [hk2] at i_dst i_counts
  rw [hr2] at hrem
  have hlt := filterLoop_removed_lt src env.newDict (entries.map Prod.fst) h2 0 (by norm_num)
  have hklen : (keptEntries h0 entries).length < 2 ^ 32 := by
    have := kept_add_removed h0 entries
    omega
  have hrlen : (removedEntries h0 entries).length < 2 ^ 32 := by
    have := kept_add_removed h0 entries
    omega
  rw [Nat.mod_eq_of_lt hlt, Nat.zero_add, Nat.mod_eq_of_lt hrlen] at hrem
  -- releasing the iterator
  set c := filterLoop src env.newDict (entries.map Prod.fst) h2 0 with hc
  have hcit : c.1.object env.newIter = .OSCollectionIterator src := by
    rw [i_frame _ hid, h2it]
  have hrit : refs env.newIter (keptEntries h0 entries) = 0 :=
    refs_eq_zero _ _ (fun e he => hih e (List.mem_filter.mp he).1)
  have hrdst : refs env.newDict (keptEntries h0 entries) = 0 :=
    refs_eq_zero _ _ (fun e he => hdh e (List.mem_filter.mp he).1)
  have hrsrc : refs src (keptEntries h0 entries) = 0 :=
    refs_eq_zero _ _ (fun e he => hsh e (List.mem_filter.mp he).1)
  have hesrc : refs src entries = 0 := refs_eq_zero _ _ hsh
  have hedst : refs env.newDict entries = 0 := refs_eq_zero _ _ hdh
  have heit : refs env.newIter entries = 0 := refs_eq_zero _ _ hih
  have h3obj : (c.1.release env.newIter).object = c.1.object := by
    unfold Heap.release Heap.releaseObject
    rw [hcit]
    simp only
    split <;> [skip; rfl]
    split <;> [skip; rfl]
    split <;> simp [Heap.flush_object]
  have h3rc : ∀ x, (c.1.release env.newIter).retainCount x =
      if x = env.newIter then 0 else if x = env.newDict then 1
      else if x = src then h0.retainCount src
      else h0.retainCount x + refs x (keptEntries h0 entries) := by
    intro x
    unfold Heap.release Heap.releaseObject
    rw [hcit]
    have e1 : (c.1.drop env.newIter).retainCount env.newIter = 0 := by
      rw [Heap.drop_retainCount, i_counts, h2rc, hrit]; simp
    have e2 : ((c.1.drop env.newIter).drop src).retainCount src ≠ 0 := by
      rw [Heap.drop_retainCount, Heap.drop_retainCount, i_counts, h2rc, hrsrc]
      simp [Ne.symm his, Ne.symm hds]
      omega
    simp only [e1, if_true, e2, if_false]
    rw [Heap.drop_retainCount, Heap.drop_retainCount, i_counts, h2rc]
    by_cases hx1 : x = env.newIter
    · subst hx1; simp [hrit]
    · by_cases hx2 : x = env.newDict
      · subst hx2; simp [hx1, hrdst, hds]
      · by_cases hx3 : x = src
        · subst hx3; simp [hx1, hx2, hrsrc]
        · simp [hx1, hx2, hx3]
  -- releasing the source
  set h3 := c.1.release env.newIter with hh3
  have h3src : h3.object src = .OSDictionary entries := by rw [h3obj, i_src]
  have h4o : ∀ x, (h3.release src).object x = c.1.object x := by
    intro x
    unfold Heap.release Heap.releaseObject
    rw [h3src]
    simp only
    split
    · rw [Heap.flush_object, Heap.drop_object, h3obj]
    · rw [Heap.drop_object, h3obj]
  have h4rc : ∀ x, (h3.release src).retainCount x =
      h3.retainCount x - (if x = src then 1 else 0) -
        (if h0.retainCount src = 1 then refs x entries else 0) := by
    intro x
    unfold Heap.release Heap.releaseObject
    rw [h3src]
    have e1 : (h3.drop src).retainCount src = h0.retainCount src - 1 := by
      rw [Heap.drop_retainCount, h3rc]; simp [Ne.symm his, Ne.symm hds]
    simp only [e1]
    by_cases hR : h0.retainCount src = 1
    · have : h0.retainCount src - 1 = 0 := by omega
      simp only [this, if_true, hR, Heap.flush_retainCount, Heap.drop_retainCount]
    · have : ¬ h0.retainCount src - 1 = 0 := by omega
      simp only [this, if_false, hR, Heap.drop_retainCount]
      omega
  have hfc : h3.getCount env.newDict = (keptEntries h0 entries).length := by
    unfold Heap.getCount
    rw [h3obj, i_dst]
    exact Nat.mod_eq_of_lt hklen
  have hocount : h0.getCount src = entries.length := by
    unfold Heap.getCount
    rw [hdict]
    exact Nat.mod_eq_of_lt hcount
  have hwc1 : ∀ n, (h0.withCapacity env.newDict n).1 = env.newDict := by
    intro n; simp [Heap.withCapacity, hdst]
  have hwi1 : ∀ g : Heap, (g.withCollection env.newIter src).1 = env.newIter := by
    intro g; simp [Heap.withCollection, hit]
  have hres : phtm_OSKext_copyLoadedKextInfo env kextIdentifiers bundlePaths h =
      { ret := env.newDict, heap := h3.release src, released := [env.newIter, src],
        report := some { originalCount := entries.length,
                         filteredCount := (keptEntries h0 entries).length,
                         removedCount := (removedEntries h0 entries).length } } := by
    have hiter : h2.iterated src = entries.map Prod.fst := by
      simp [Heap.iterated, h2src]
    simp only [phtm_OSKext_copyLoadedKextInfo, hproc, hf, hfr, hnn, if_false, hwc1, hwi1, hdst,
      hit, ne_eq, not_false_eq_true, if_true]
    simp only [h2, h1] at hiter
    rw [hiter, hocount]
    change ({ ret := env.newDict, heap := h3.release src, released := [env.newIter, src],
              report := some { originalCount := entries.length,
                               filteredCount := h3.getCount env.newDict,
                               removedCount := c.2 } } : KextResult) = _
    rw [hfc, hrem]
  rw [hres]
  refine ⟨rfl, rfl, rfl, ?_, ?_, ?_, ?_, ?_, ?_⟩
  · rw [h4o, i_dst]
  · intro x hx1 hx2
    rw [h4o, i_frame x hx1, h2obj x hx1 hx2]
  · show (h3.release src).retainCount env.newIter = 0
    rw [h4rc, h3rc]; simp
  · show (h3.release src).retainCount env.newDict = 1
    rw [h4rc, h3rc]; simp [Ne.symm hid, hds, hedst]
  · show (h3.release src).retainCount src = h0.retainCount src - 1
    rw [h4rc, h3rc]; simp [Ne.symm his, Ne.symm hds, hesrc]
  · intro x hx1 hx2 hx3
    show (h3.release src).retainCount x = _
    rw [h4rc, h3rc]; simp [hx1, hx2, hx3]

/-! ## The loaded-kext dictionary filter -/

/-- C2: when the original routine returns a dictionary with string keys and non-null
values and both the destination allocation and the iterator creation succeed,
`phtm_OSKext_copyLoadedKextInfo` returns a non-null dictionary (the freshly allocated
one) whose entries are exactly the entries of the source, same key and same value and
in the same order, whose key contains none of the filter patterns as a contiguous
substring; the key strings themselves are untouched; an empty source gives an empty
non-null result. -/
theorem copyLoadedKextInfo_filters (env : KextEnv) (kextIdentifiers bundlePaths : Ref)
    (h : Heap) (src : Ref) (h0 : Heap) (entries : List (Ref × Ref))
    (hret : ReturnsDict env kextIdentifiers bundlePaths h src h0)
    (hsrc : SourceDict h0 src entries)
    (hdst : env.newDict ≠ 0) (hit : env.newIter ≠ 0)
    (hfresh : FreshAddrs src entries env.newDict env.newIter) :
    (phtm_OSKext_copyLoadedKextInfo env kextIdentifiers bundlePaths h).ret ≠ 0 ∧
    (∃ result,
      (phtm_OSKext_copyLoadedKextInfo env kextIdentifiers bundlePaths h).heap.object
          (phtm_OSKext_copyLoadedKextInfo env kextIdentifiers bundlePaths h).ret
        = .OSDictionary result ∧
      result = entries.filter
        (fun e => !containsPattern filterSubstrings (h0.getCStringNoCopy e.1)) ∧
      (∀ k v, (k, v) ∈ result ↔
        (k, v) ∈ entries ∧
          ∀ s, h0.getCStringNoCopy k = some s → ∀ p ∈ filterSubstrings, ¬ p <:+: s) ∧
      (entries = [] → result = [])) ∧
    (∀ e ∈ entries,
      (phtm_OSKext_copyLoadedKextInfo env kextIdentifiers bundlePaths h).heap.object e.1
        = h0.object e.1) := by
  have hF := filtered_path env kextIdentifiers bundlePaths h src h0 entries hret hsrc hdst hit
    hfresh
  refine ⟨by rw [hF.ret]; exact hdst, ⟨keptEntries h0 entries, ?_, rfl, ?_, ?_⟩, ?_⟩
  · rw [hF.ret]; exact hF.dst_obj
  · intro k v
    unfold keptEntries
    rw [List.mem_filter]
    apply and_congr_right
    intro _
    cases hc : h0.getCStringNoCopy k with
    | none => simp [containsPattern]
    | some s => simp [containsPattern, List.any_eq_true]
  · intro he; rw [he]; rfl
  · intro e he
    exact hF.frame e.1 (hfresh.dst_not_held e he).1 (hfresh.it_not_held e he).1

/-- Witness for C2: the source `{org.Carnations.Foo: 11, com.example.Bar: 12,
as.vit9696.Baz: 13}` satisfies the hypotheses and the result is the dictionary
`{com.example.Bar: 12}` at the destination address 200. -/
theorem copyLoadedKextInfo_filters_witness :
    (phtm_OSKext_copyLoadedKextInfo (kextEnv 200 300) 0 0 heap3).ret = 200 ∧
    (phtm_OSKext_copyLoadedKextInfo (kextEnv 200 300) 0 0 heap3).heap.object 200
      = .OSDictionary [(2, 12)] ∧
    (phtm_OSKext_copyLoadedKextInfo (kextEnv 200 300) 0 0 heap3).ret ≠ 0 ∧
    (∃ result,
      (phtm_OSKext_copyLoadedKextInfo (kextEnv 200 300) 0 0 heap3).heap.object
          (phtm_OSKext_copyLoadedKextInfo (kextEnv 200 300) 0 0 heap3).ret
        = .OSDictionary result ∧
      result = [(1, 11), (2, 12), (3, 13)].filter
        (fun e => !containsPattern filterSubstrings (heap3.getCStringNoCopy e.1)) ∧
      (∀ k v, (k, v) ∈ result ↔
        (k, v) ∈ [(1, 11), (2, 12), (3, 13)] ∧
          ∀ s, heap3.getCStringNoCopy k = some s → ∀ p ∈ filterSubstrings, ¬ p <:+: s) ∧
      (([(1, 11), (2, 12), (3, 13)] : List (Ref × Ref)) = [] → result = [])) ∧
    (∀ e ∈ ([(1, 11), (2, 12), (3, 13)] : List (Ref × Ref)),
      (phtm_OSKext_copyLoadedKextInfo (kextEnv 200 300) 0 0 heap3).heap.object e.1
        = heap3.object e.1) :=
  ⟨by decide, by decide,
    copyLoadedKextInfo_filters (kextEnv 200 300) 0 0 heap3 100 heap3 [(1, 11), (2, 12), (3, 13)]
      ⟨by decide, ⟨_, rfl, rfl⟩, by decide⟩
      ⟨by decide, by decide, by decide, by decide, by decide, by decide⟩
      (by decide) (by decide)
      ⟨by decide, by decide, by decide, by decide, by decide, by decide⟩⟩

/-- C3: on the filtering path the removed-count of the closing log line is the number
of source entries whose key contains some filter pattern, the number of entries of the
returned dictionary plus the removed-count is the number of source entries, and the
logged original and filtered counts are the sizes of the source and of the result. -/
theorem copyLoadedKextInfo_counts (env : KextEnv) (kextIdentifiers bundlePaths : Ref)
    (h : Heap) (src : Ref) (h0 : Heap) (entries : List (Ref × Ref))
    (hret : ReturnsDict env kextIdentifiers bundlePaths h src h0)
    (hsrc : SourceDict h0 src entries)
    (hdst : env.newDict ≠ 0) (hit : env.newIter ≠ 0)
    (hfresh : FreshAddrs src entries env.newDict env.newIter) :
    ∃ report result,
      (phtm_OSKext_copyLoadedKextInfo env kextIdentifiers bundlePaths h).report = some report ∧
      (phtm_OSKext_copyLoadedKextInfo env kextIdentifiers bundlePaths h).heap.object
          (phtm_OSKext_copyLoadedKextInfo env kextIdentifiers bundlePaths h).ret
        = .OSDictionary result ∧
      report.removedCount = (entries.filter
        (fun e => containsPattern filterSubstrings (h0.getCStringNoCopy e.1))).length ∧
      result.length + report.removedCount = entries.length ∧
      report.filteredCount = result.length ∧
      report.originalCount = entries.length := by
  have hF := filtered_path env kextIdentifiers bundlePaths h src h0 entries hret hsrc hdst hit
    hfresh
  refine ⟨_, keptEntries h0 entries, hF.report, ?_, rfl, ?_, rfl, rfl⟩
  · rw [hF.ret]; exact hF.dst_obj
  · exact kept_add_removed h0 entries

/-- Witness for C3: a source of five entries of which two match gives a three-entry
result and the removed-count 2. -/
theorem copyLoadedKextInfo_counts_witness :
    (phtm_OSKext_copyLoadedKextInfo (kextEnv 200 300) 0 0 heap5).report
      = some { originalCount := 5, filteredCount := 3, removedCount := 2 } ∧
    (phtm_OSKext_copyLoadedKextInfo (kextEnv 200 300) 0 0 heap5).heap.object 200
      = .OSDictionary [(1, 11), (3, 13), (4, 14)] ∧
    ∃ report result,
      (phtm_OSKext_copyLoadedKextInfo (kextEnv 200 300) 0 0 heap5).report = some report ∧
      (phtm_OSKext_copyLoadedKextInfo (kextEnv 200 300) 0 0 heap5).heap.object
          (phtm_OSKext_copyLoadedKextInfo (kextEnv 200 300) 0 0 heap5).ret
        = .OSDictionary result ∧
      report.removedCount = ([(1, 11), (2, 12), (3, 13), (4, 14), (5, 15)].filter
        (fun e => containsPattern filterSubstrings (heap5.getCStringNoCopy e.1))).length ∧
      result.length + report.removedCount
        = ([(1, 11), (2, 12), (3, 13), (4, 14), (5, 15)] : List (Ref × Ref)).length ∧
      report.filteredCount = result.length ∧
      report.originalCount
        = ([(1, 11), (2, 12), (3, 13), (4, 14), (5, 15)] : List (Ref × Ref)).length :=
  ⟨by decide, by decide,
    copyLoadedKextInfo_counts (kextEnv 200 300) 0 0 heap5 100 heap5
      [(1, 11), (2, 12), (3, 13), (4, 14), (5, 15)]
      ⟨by decide, ⟨_, rfl, rfl⟩, by decide⟩
      ⟨by decide, by decide, by decide, by decide, by decide, by decide⟩
      (by decide) (by decide)
      ⟨by decide, by decide, by decide, by decide, by decide, by decide⟩⟩

/-- C4: when the original routine returned the non-null dictionary `src` and either the
destination allocation fails or no iterator can be obtained, the routine returns `src`
itself; it never calls `release()` on `src`, the retain count of `src` is what it was,
and no object other than the (empty, released) destination, in particular neither
`src` nor any of its keys and values, is changed in content or in retain count. -/
theorem copyLoadedKextInfo_fallback (env : KextEnv) (kextIdentifiers bundlePaths : Ref)
    (h : Heap) (src : Ref) (h0 : Heap)
    (hret : ReturnsDict env kextIdentifiers bundlePaths h src h0)
    (hfail : env.newDict = 0 ∨ env.newIter = 0)
    (hfresh : env.newDict ≠ src) :
    (phtm_OSKext_copyLoadedKextInfo env kextIdentifiers bundlePaths h).ret = src ∧
    src ∉ (phtm_OSKext_copyLoadedKextInfo env kextIdentifiers bundlePaths h).released ∧
    (phtm_OSKext_copyLoadedKextInfo env kextIdentifiers bundlePaths h).heap.object src
      = h0.object src ∧
    (phtm_OSKext_copyLoadedKextInfo env kextIdentifiers bundlePaths h).heap.retainCount src
      = h0.retainCount src ∧
    (∀ x, x ≠ env.newDict →
      (phtm_OSKext_copyLoadedKextInfo env kextIdentifiers bundlePaths h).heap.object x
        = h0.object x ∧
      (phtm_OSKext_copyLoadedKextInfo env kextIdentifiers bundlePaths h).heap.retainCount x
        = h0.retainCount x) := by
  obtain ⟨hproc, ⟨f, hf, hfr⟩, hnn⟩ := hret
  by_cases hd : env.newDict = 0
  · have hres : phtm_OSKext_copyLoadedKextInfo env kextIdentifiers bundlePaths h =
        { ret := src, heap := h0, released := [], report := none } := by
      simp [phtm_OSKext_copyLoadedKextInfo, hproc, hf, hfr, hnn, Heap.withCapacity, hd]
    rw [hres]
    simp
  · have hi : env.newIter = 0 := by
      rcases hfail with h1 | h1
      · exact absurd h1 hd
      · exact h1
    have hres : phtm_OSKext_copyLoadedKextInfo env kextIdentifiers bundlePaths h =
        { ret := src,
          heap := { object := Function.update h0.object env.newDict (.OSDictionary []),
                    retainCount := Function.update h0.retainCount env.newDict 0 },
          released := [env.newDict], report := none } := by
      simp [phtm_OSKext_copyLoadedKextInfo, hproc, hf, hfr, hnn, Heap.withCapacity, hd, hi,
        Heap.withCollection, Heap.release, Heap.releaseObject, Heap.drop, Heap.flush]
    rw [hres]
    refine ⟨rfl, ?_, ?_, ?_, ?_⟩
    · simp [Ne.symm hfresh]
    · simp [Function.update, Ne.symm hfresh]
    · simp [Function.update, Ne.symm hfresh]
    · intro x hx
      simp [Function.update, hx]

/-- Witness for C4: the iterator cannot be created (the destination was allocated at
address 200); the routine returns the source at address 100, untouched. -/
theorem copyLoadedKextInfo_fallback_witness :
    (phtm_OSKext_copyLoadedKextInfo (kextEnv 200 0) 0 0 heap3).ret = 100 ∧
    100 ∉ (phtm_OSKext_copyLoadedKextInfo (kextEnv 200 0) 0 0 heap3).released ∧
    (phtm_OSKext_copyLoadedKextInfo (kextEnv 200 0) 0 0 heap3).heap.object 100
      = heap3.object 100 ∧
    (phtm_OSKext_copyLoadedKextInfo (kextEnv 200 0) 0 0 heap3).heap.retainCount 100
      = heap3.retainCount 100 ∧
    (∀ x, x ≠ (kextEnv 200 0).newDict →
      (phtm_OSKext_copyLoadedKextInfo (kextEnv 200 0) 0 0 heap3).heap.object x
        = heap3.object x ∧
      (phtm_OSKext_copyLoadedKextInfo (kextEnv 200 0) 0 0 heap3).heap.retainCount x
        = heap3.retainCount x) :=
  copyLoadedKextInfo_fallback (kextEnv 200 0) 0 0 heap3 100 heap3
    ⟨by decide, ⟨_, rfl, rfl⟩, by decide⟩ (Or.inr rfl) (by decide)

/-- C5: reference counts balance on every return path after the original routine
returned the non-null dictionary `src`.
* Allocation failure: `src` is returned, the routine releases nothing and no retain
  count changes.
* Iterator failure: `src` is returned and not released; the destination is released
  exactly once and its count ends at zero; no other count changes.
* Filtering path: the destination is returned, not released, with retain count 1; the
  iterator is released exactly once and ends at zero; the source is released exactly
  once (after the iterator, before the return) and its count is one less than at entry;
  and every key and value of the returned dictionary has at least as many retains as
  the returned dictionary holds references to it, hence at least one, even when the
  release of the source freed it. -/
theorem copyLoadedKextInfo_refcounts (env : KextEnv) (kextIdentifiers bundlePaths : Ref)
    (h : Heap) (src : Ref) (h0 : Heap) (entries : List (Ref × Ref))
    (hret : ReturnsDict env kextIdentifiers bundlePaths h src h0)
    (hsrc : SourceDict h0 src entries)
    (hcounted : ∀ e ∈ entries,
      refs e.1 entries ≤ h0.retainCount e.1 ∧ refs e.2 entries ≤ h0.retainCount e.2) :
    (env.newDict = 0 →
      (phtm_OSKext_copyLoadedKextInfo env kextIdentifiers bundlePaths h).ret = src ∧
      (phtm_OSKext_copyLoadedKextInfo env kextIdentifiers bundlePaths h).released = [] ∧
      (phtm_OSKext_copyLoadedKextInfo env kextIdentifiers bundlePaths h).heap.retainCount
        = h0.retainCount) ∧
    (env.newDict ≠ 0 → env.newIter = 0 → env.newDict ≠ src →
      (phtm_OSKext_copyLoadedKextInfo env kextIdentifiers bundlePaths h).ret = src ∧
      (phtm_OSKext_copyLoadedKextInfo env kextIdentifiers bundlePaths h).released
        = [env.newDict] ∧
      (phtm_OSKext_copyLoadedKextInfo env kextIdentifiers bundlePaths h).heap.retainCount
        env.newDict = 0 ∧
      (∀ x, x ≠ env.newDict →
        (phtm_OSKext_copyLoadedKextInfo env kextIdentifiers bundlePaths h).heap.retainCount x
          = h0.retainCount x)) ∧
    (env.newDict ≠ 0 → env.newIter ≠ 0 → FreshAddrs src entries env.newDict env.newIter →
      (phtm_OSKext_copyLoadedKextInfo env kextIdentifiers bundlePaths h).ret = env.newDict ∧
      (phtm_OSKext_copyLoadedKextInfo env kextIdentifiers bundlePaths h).released
        = [env.newIter, src] ∧
      (phtm_OSKext_copyLoadedKextInfo env kextIdentifiers bundlePaths h).heap.retainCount
        env.newDict = 1 ∧
      (phtm_OSKext_copyLoadedKextInfo env kextIdentifiers bundlePaths h).heap.retainCount
        env.newIter = 0 ∧
      (phtm_OSKext_copyLoadedKextInfo env kextIdentifiers bundlePaths h).heap.retainCount src
        = h0.retainCount src - 1 ∧
      ∃ result,
        (phtm_OSKext_copyLoadedKextInfo env kextIdentifiers bundlePaths h).heap.object
          env.newDict = .OSDictionary result ∧
        ∀ e ∈ result,
          1 ≤ refs e.1 result ∧ 1 ≤ refs e.2 result ∧
          refs e.1 result ≤
            (phtm_OSKext_copyLoadedKextInfo env kextIdentifiers bundlePaths h).heap.retainCount
              e.1 ∧
          refs e.2 result ≤
            (phtm_OSKext_copyLoadedKextInfo env kextIdentifiers bundlePaths h).heap.retainCount
              e.2) := by
  refine ⟨?_, ?_, ?_⟩
  · intro hd
    obtain ⟨hproc, ⟨f, hf, hfr⟩, hnn⟩ := hret
    have hres : phtm_OSKext_copyLoadedKextInfo env kextIdentifiers bundlePaths h =
        { ret := src, heap := h0, released := [], report := none } := by
      simp [phtm_OSKext_copyLoadedKextInfo, hproc, hf, hfr, hnn, Heap.withCapacity, hd]
    rw [hres]
    exact ⟨rfl, rfl, rfl⟩
  · intro hd hi _
    obtain ⟨hproc, ⟨f, hf, hfr⟩, hnn⟩ := hret
    have hres : phtm_OSKext_copyLoadedKextInfo env kextIdentifiers bundlePaths h =
        { ret := src,
          heap := { object := Function.update h0.object env.newDict (.OSDictionary []),
                    retainCount := Function.update h0.retainCount env.newDict 0 },
          released := [env.newDict], report := none } := by
      simp [phtm_OSKext_copyLoadedKextInfo, hproc, hf, hfr, hnn, Heap.withCapacity, hd, hi,
        Heap.withCollection, Heap.release, Heap.releaseObject, Heap.drop, Heap.flush]
    rw [hres]
    refine ⟨rfl, rfl, ?_, ?_⟩
    · simp
    · intro x hx
      simp [Function.update, hx]
  · intro hd hi hfresh
    have hF := filtered_path env kextIdentifiers bundlePaths h src h0 entries hret hsrc hd hi
      hfresh
    refine ⟨hF.ret, hF.released, hF.rc_dst, hF.rc_it, hF.rc_src, keptEntries h0 entries,
      hF.dst_obj, ?_⟩
    intro e he
    have hin : e ∈ entries := (List.mem_filter.mp he).1
    have hpos := refs_pos_of_mem e _ he
    have hc := hcounted e hin
    have r1 := hF.rc_other e.1 (hfresh.dst_not_held e hin).1 (hfresh.it_not_held e hin).1
      (hfresh.src_not_held e hin).1
    have r2 := hF.rc_other e.2 (hfresh.dst_not_held e hin).2 (hfresh.it_not_held e hin).2
      (hfresh.src_not_held e hin).2
    refine ⟨hpos.1, hpos.2, ?_, ?_⟩
    · rw [r1]; split <;> omega
    · rw [r2]; split <;> omega

/-- Witness for C5: the filtering path on the three-entry source, whose owner holds the
only reference to it.  The source is freed by the final release, and the kept key and
value (addresses 2 and 12) still have retain count 1, held by the result. -/
theorem copyLoadedKextInfo_refcounts_witness :
    (phtm_OSKext_copyLoadedKextInfo (kextEnv 200 300) 0 0 heap3).released = [300, 100] ∧
    (phtm_OSKext_copyLoadedKextInfo (kextEnv 200 300) 0 0 heap3).heap.retainCount 100 = 0 ∧
    (phtm_OSKext_copyLoadedKextInfo (kextEnv 200 300) 0 0 heap3).heap.retainCount 2 = 1 ∧
    (phtm_OSKext_copyLoadedKextInfo (kextEnv 200 300) 0 0 heap3).heap.retainCount 12 = 1 ∧
    (phtm_OSKext_copyLoadedKextInfo (kextEnv 200 300) 0 0 heap3).heap.retainCount 1 = 0 ∧
    (phtm_OSKext_copyLoadedKextInfo (kextEnv 200 300) 0 0 heap3).ret = 200 ∧
    (phtm_OSKext_copyLoadedKextInfo (kextEnv 200 300) 0 0 heap3).heap.retainCount 200 = 1 ∧
    (phtm_OSKext_copyLoadedKextInfo (kextEnv 200 300) 0 0 heap3).heap.retainCount 300 = 0 :=
  have hw := (copyLoadedKextInfo_refcounts (kextEnv 200 300) 0 0 heap3 100 heap3
      [(1, 11), (2, 12), (3, 13)]
      ⟨by decide, ⟨_, rfl, rfl⟩, by decide⟩
      ⟨by decide, by decide, by decide, by decide, by decide, by decide⟩
      (by decide)).2.2 (by decide) (by decide)
      ⟨by decide, by decide, by decide, by decide, by decide, by decide⟩
  ⟨hw.2.1, by decide, by decide, by decide, by decide, hw.1, hw.2.2.1, hw.2.2.2.1⟩

/-! ## The sysctl tree walk -/

/-- A scan started with the counter at `traversalCount` and more than
`MAX_TRAVERSAL - traversalCount` units of fuel never runs out of fuel, and it examines
no more than `MAX_TRAVERSAL` nodes in all. -/
theorem scanLevel_total (k : Kernel) (segment : CString) :
    ∀ (fuel : Nat) (node : Ref) (traversalCount : Nat) (examined : List Ref),
      MAX_TRAVERSAL < traversalCount + fuel → traversalCount ≤ MAX_TRAVERSAL →
      examined.length = traversalCount →
      ∃ r, scanLevel k segment fuel node traversalCount examined = some r ∧
        r.2.length ≤ MAX_TRAVERSAL := by
  intro fuel
  induction fuel with
  | zero => intro node tc ex h1 h2 _; omega
  | succ fuel ih =>
    intro node tc ex h1 h2 h3
    unfold scanLevel
    by_cases hn : node = 0
    · refine ⟨(.notFound, ex), by simp [hn], ?_⟩
      show ex.length ≤ MAX_TRAVERSAL
      omega
    · by_cases hlim : tc + 1 > MAX_TRAVERSAL
      · refine ⟨(.limitExceeded, ex), by simp [hn, hlim], ?_⟩
        show ex.length ≤ MAX_TRAVERSAL
        omega
      · have hlen : (ex ++ [node]).length = tc + 1 := by simp [h3]
        have hle : tc + 1 ≤ MAX_TRAVERSAL := by omega
        obtain ⟨r, hr1, hr2⟩ := ih (k.oid node).oid_link (tc + 1) (ex ++ [node])
          (by omega) hle hlen
        cases hname : (k.oid node).oid_name with
        | none => exact ⟨r, by simp [hn, hlim, hr1], hr2⟩
        | some name =>
          by_cases ht : strnlen name 32 < 32 ∧ strcmp name segment = 0
          · refine ⟨(.found node, ex ++ [node]), ?_, ?_⟩
            · simp only [hn, hlim, if_false, ht, and_self, if_true]
            · show (ex ++ [node]).length ≤ MAX_TRAVERSAL
              omega
          · exact ⟨r, by simp only [hn, hlim, if_false, ht, hr1], hr2⟩

/-- The walk always ends. -/
theorem locate_total (k : Kernel) (leaf : CString) : ∃ l, locate k leaf = some l := by
  unfold locate
  by_cases h1 : k.gSysctlChildrenAddr = 0
  · exact ⟨.rootRejected, by simp [h1]⟩
  · by_cases h2 : k.gSysctlChildrenAddr < 0xffffff8000000000
    · exact ⟨.rootRejected, by simp [h1, h2]⟩
    · simp only [h1, h2, if_false]
      obtain ⟨r, hr, _⟩ := scanLevel_total k "kern".toList (MAX_TRAVERSAL + 1)
        (k.slh_first k.gSysctlChildrenAddr) 0 [] (by omega) (by omega) rfl
      rw [hr]
      obtain ⟨sc, ex⟩ := r
      cases sc with
      | notFound => exact ⟨_, rfl⟩
      | limitExceeded => exact ⟨_, rfl⟩
      | found kernNode =>
        by_cases h3 : (k.oid kernNode).oid_arg1 = 0
        · exact ⟨.noChildren, by simp [h3]⟩
        · simp only [h3, if_false]
          obtain ⟨r2, hr2, _⟩ := scanLevel_total k leaf (MAX_TRAVERSAL + 1)
            (k.slh_first (k.oid kernNode).oid_arg1) 0 [] (by omega) (by omega) rfl
          rw [hr2]
          obtain ⟨sc2, ex2⟩ := r2
          cases sc2 with
          | notFound => exact ⟨_, rfl⟩
          | limitExceeded => exact ⟨_, rfl⟩
          | found node => exact ⟨_, rfl⟩

/-- `reRouteSecureLevel` is the walk for `securelevel` followed by the installation
step. -/
theorem reRouteSecureLevel_eq (env : PatchEnv) (k : Kernel) :
    reRouteSecureLevel env k =
      (locate k "securelevel".toList).map (afterLocate (installSecureLevel env k) k) := by
  unfold reRouteSecureLevel locate
  by_cases h1 : k.gSysctlChildrenAddr = 0
  · simp [h1, afterLocate]
  · by_cases h2 : k.gSysctlChildrenAddr < 0xffffff8000000000
    · simp [h1, h2, afterLocate]
    · simp only [h1, h2, if_false]
      cases hs : scanLevel k "kern".toList (MAX_TRAVERSAL + 1)
          (k.slh_first k.gSysctlChildrenAddr) 0 [] with
      | none => rfl
      | some r =>
        obtain ⟨sc, ex⟩ := r
        cases sc with
        | notFound => rfl
        | limitExceeded => rfl
        | found kernNode =>
          by_cases h3 : (k.oid kernNode).oid_arg1 = 0
          · simp [h3, afterLocate]
          · simp only [h3, if_false]
            cases hs2 : scanLevel k "securelevel".toList (MAX_TRAVERSAL + 1)
                (k.slh_first (k.oid kernNode).oid_arg1) 0 [] with
            | none => rfl
            | some r2 =>
              obtain ⟨sc2, ex2⟩ := r2
              cases sc2 with
              | notFound => rfl
              | limitExceeded => rfl
              | found node =>
                simp only [Option.map_some', afterLocate, installSecureLevel]
                by_cases h4 : (k.oid node).oid_handler = 0
                · simp [h4]
                · by_cases h5 : env.enableStatus = KERN_SUCCESS
                  · simp [h4, h5]
                  · simp [h4, h5]

/-- `reRouteHvVmm` is the walk for `hv_vmm_present` followed by the installation step. -/
theorem reRouteHvVmm_eq (env : PatchEnv) (k : Kernel) :
    reRouteHvVmm env k =
      (locate k "hv_vmm_present".toList).map (afterLocate (installHvVmm env k) k) := by
  unfold reRouteHvVmm locate
  by_cases h1 : k.gSysctlChildrenAddr = 0
  · simp [h1, afterLocate]
  · by_cases h2 : k.gSysctlChildrenAddr < 0xffffff8000000000
    · simp [h1, h2, afterLocate]
    · simp only [h1, h2, if_false]
      cases hs : scanLevel k "kern".toList (MAX_TRAVERSAL + 1)
          (k.slh_first k.gSysctlChildrenAddr) 0 [] with
      | none => rfl
      | some r =>
        obtain ⟨sc, ex⟩ := r
        cases sc with
        | notFound => rfl
        | limitExceeded => rfl
        | found kernNode =>
          by_cases h3 : (k.oid kernNode).oid_arg1 = 0
          · simp [h3, afterLocate]
          · simp only [h3, if_false]
            cases hs2 : scanLevel k "hv_vmm_present".toList (MAX_TRAVERSAL + 1)
                (k.slh_first (k.oid kernNode).oid_arg1) 0 [] with
            | none => rfl
            | some r2 =>
              obtain ⟨sc2, ex2⟩ := r2
              cases sc2 with
              | notFound => rfl
              | limitExceeded => rfl
              | found node =>
                simp only [Option.map_some', afterLocate, installHvVmm]
                by_cases h4 : (k.oid node).oid_handler = 0
                · simp [h4]
                · by_cases h5 : env.enableStatus = KERN_SUCCESS
                  · simp [h4, h5]
                  · simp [h4, h5]

/-- For names that are C strings, the test of the scan loop succeeds exactly on the
segment itself. -/
theorem nameTest_iff (name segment : CString) (hn : IsCString name)
    (hs : IsCString segment) (hl : segment.length < 32) :
    (strnlen name 32 < 32 ∧ strcmp name segment = 0) ↔ name = segment := by
  rw [strcmp_eq_zero_iff name segment hn hs]
  constructor
  · exact fun h => h.2
  · intro h
    subst h
    exact ⟨by unfold strnlen; omega, rfl⟩

theorem segments_ok (segment : CString) (h : segment ∈ segments) :
    IsCString segment ∧ segment.length < 32 := by
  simp only [segments, List.mem_cons, List.mem_singleton, List.not_mem_nil, or_false] at h
  rcases h with rfl | rfl | rfl <;> exact ⟨by decide, by decide⟩

/-- A scan over a list in which one of the first nodes is named exactly like the
segment ends at the first such node. -/
theorem scanLevel_first_match (k : Kernel) (segment : CString) (hs : IsCString segment)
    (hl : segment.length < 32) :
    ∀ (n : Nat) (node : Ref) (traversalCount : Nat) (examined : List Ref) (fuel : Nat) (b : Ref),
      traversalCount + n ≤ MAX_TRAVERSAL → n < fuel →
      (∀ m ∈ siblings k n node, ∀ s, (k.oid m).oid_name = some s → IsCString s) →
      (siblings k n node).find? (namedExactly k segment) = some b →
      scanLevel k segment fuel node traversalCount examined =
        some (.found b, examined ++
          (siblings k n node).takeWhile (fun m => !namedExactly k segment m) ++ [b]) := by
  intro n
  induction n with
  | zero => intro node tc ex fuel b _ _ _ hf; simp [siblings] at hf
  | succ n ih =>
    intro node tc ex fuel b htc hfuel hnames hf
    by_cases hn : node = 0
    · simp [siblings, hn] at hf
    · obtain ⟨fuel, rfl⟩ : ∃ f, fuel = f + 1 := ⟨fuel - 1, by omega⟩
      have hsib : siblings k (n + 1) node = node :: siblings k n (k.oid node).oid_link := by
        simp [siblings, hn]
      rw [hsib] at hf hnames ⊢
      have hlim : ¬ tc + 1 > MAX_TRAVERSAL := by omega
      unfold scanLevel
      simp only [hn, hlim, if_false]
      by_cases hm : namedExactly k segment node = true
      · have hname : (k.oid node).oid_name = some segment := by
          simpa [namedExactly] using hm
        have hb : b = node := by
          simp [List.find?, hm] at hf
          exact hf.symm
        subst hb
        have ht : strnlen segment 32 < 32 ∧ strcmp segment segment = 0 :=
          (nameTest_iff segment segment hs hs hl).mpr rfl
        simp [hname, ht, List.takeWhile, hm]
      · rw [Bool.not_eq_true] at hm
        have hf2 : (siblings k n (k.oid node).oid_link).find? (namedExactly k segment)
            = some b := by
          simpa [List.find?, hm] using hf
        have hrec := ih (k.oid node).oid_link (tc + 1) (ex ++ [node]) fuel b (by omega)
          (by omega) (fun m hm2 => hnames m (List.mem_cons_of_mem _ hm2)) hf2
        have htw : (node :: siblings k n (k.oid node).oid_link).takeWhile
            (fun m => !namedExactly k segment m)
            = node :: (siblings k n (k.oid node).oid_link).takeWhile
              (fun m => !namedExactly k segment m) := by
          simp [List.takeWhile, hm]
        rw [htw]
        cases hname : (k.oid node).oid_name with
        | none =>
          simp [hrec]
        | some name =>
          have hne : name ≠ segment := by
            intro h
            subst h
            simp [namedExactly, hname] at hm
          have hc : IsCString name := hnames node (by simp) name hname
          have ht : ¬ (strnlen name 32 < 32 ∧ strcmp name segment = 0) :=
            fun h => hne ((nameTest_iff name segment hc hs hl).mp h)
          simp only [ht, if_false, hrec]
          simp

/-- A scan over a list in which none of the first `MAX_TRAVERSAL` nodes is named like
the segment: it examines these nodes and ends with the traversal limit when a further
node follows them, and by running off the list otherwise. -/
theorem scanLevel_no_match (k : Kernel) (segment : CString) (hs : IsCString segment)
    (hl : segment.length < 32) :
    ∀ (n : Nat) (node : Ref) (traversalCount : Nat) (examined : List Ref) (fuel : Nat),
      traversalCount + n = MAX_TRAVERSAL → n < fuel →
      (∀ m ∈ siblings k n node, ∀ s, (k.oid m).oid_name = some s → IsCString s) →
      (∀ m ∈ siblings k n node, namedExactly k segment m = false) →
      scanLevel k segment fuel node traversalCount examined =
        some (if (siblings k (n + 1) node).length = n + 1 then .limitExceeded else .notFound,
          examined ++ siblings k n node) := by
  intro n
  induction n with
  | zero =>
    intro node tc ex fuel htc hfuel _ _
    obtain ⟨fuel, rfl⟩ : ∃ f, fuel = f + 1 := ⟨fuel - 1, by omega⟩
    unfold scanLevel
    by_cases hn : node = 0
    · simp [hn, siblings]
    · have hlim : tc + 1 > MAX_TRAVERSAL := by omega
      simp [hn, hlim, siblings]
  | succ n ih =>
    intro node tc ex fuel htc hfuel hnames hno
    obtain ⟨fuel, rfl⟩ : ∃ f, fuel = f + 1 := ⟨fuel - 1, by omega⟩
    unfold scanLevel
    by_cases hn : node = 0
    · simp [hn, siblings]
    · have hsib : ∀ j, siblings k (j + 1) node = node :: siblings k j (k.oid node).oid_link := by
        intro j; simp [siblings, hn]
      rw [hsib] at hnames hno
      have hlim : ¬ tc + 1 > MAX_TRAVERSAL := by omega
      have hm : namedExactly k segment node = false := hno node (by simp)
      have hrec := ih (k.oid node).oid_link (tc + 1) (ex ++ [node]) fuel (by omega) (by omega)
        (fun m hm2 => hnames m (List.mem_cons_of_mem _ hm2))
        (fun m hm2 => hno m (List.mem_cons_of_mem _ hm2))
      simp only [hn, hlim, if_false]
      rw [hsib (n + 1), hsib n]
      simp only [List.length_cons, Nat.add_right_cancel_iff]
      cases hname : (k.oid node).oid_name with
      | none =>
        simp only [hrec, List.append_assoc, List.singleton_append]
      | some name =>
        have hne : name ≠ segment := by
          intro h
          subst h
          simp [namedExactly, hname] at hm
        have hc : IsCString name := hnames node (by simp) name hname
        have ht : ¬ (strnlen name 32 < 32 ∧ strcmp name segment = 0) :=
          fun h => hne ((nameTest_iff name segment hc hs hl).mp h)
        simp only [ht, if_false, hrec, List.append_assoc, List.singleton_append]

theorem hasCStringName_spec (k : Kernel) (nodes : List Ref)
    (h : ∀ m ∈ nodes, hasCStringName k m = true) :
    ∀ m ∈ nodes, ∀ s, (k.oid m).oid_name = some s → IsCString s := by
  intro m hm s hs
  have := h m hm
  simpa [hasCStringName, hs] using this

/-- C6: in a sibling list whose names are C strings, if one of the first
`MAX_TRAVERSAL` (1000) nodes is named exactly like the segment (`kern`, `securelevel`
or `hv_vmm_present`), the level scan ends by `break` at the first such node `b`; the
nodes it examined are the ones before `b`, none of them named like the segment (null
names included), followed by `b` itself. -/
theorem scan_selects_first_exact_match (k : Kernel) (segment : CString) (head b : Ref)
    (hseg : segment ∈ segments)
    (hnames : ∀ m ∈ siblings k MAX_TRAVERSAL head, hasCStringName k m = true)
    (hfirst : (siblings k MAX_TRAVERSAL head).find? (namedExactly k segment) = some b) :
    scanLevel k segment (MAX_TRAVERSAL + 1) head 0 [] =
      some (.found b,
        (siblings k MAX_TRAVERSAL head).takeWhile (fun m => !namedExactly k segment m)
          ++ [b]) ∧
    (k.oid b).oid_name = some segment ∧
    b ∈ siblings k MAX_TRAVERSAL head ∧
    ∀ m ∈ (siblings k MAX_TRAVERSAL head).takeWhile (fun m => !namedExactly k segment m),
      (k.oid m).oid_name ≠ some segment := by
  obtain ⟨hs, hl⟩ := segments_ok segment hseg
  refine ⟨?_, ?_, List.mem_of_find?_eq_some hfirst, ?_⟩
  · have := scanLevel_first_match k segment hs hl MAX_TRAVERSAL head 0 [] (MAX_TRAVERSAL + 1) b
      (by omega) (by omega) (hasCStringName_spec k _ hnames) hfirst
    simpa using this
  · have := List.find?_some hfirst
    simpa [namedExactly] using this
  · intro m hm
    have := List.mem_takeWhile_imp hm
    simpa [namedExactly] using this

/-- Witness for C6: in the root list `[vm, kern, debug]` of the small tree the scan for
`kern` selects the second node, after examining the first. -/
theorem scan_selects_first_exact_match_witness :
    scanLevel treeK "kern".toList (MAX_TRAVERSAL + 1) 0xffffff8000200010 0 [] =
      some (.found 0xffffff8000200020, [0xffffff8000200010, 0xffffff8000200020]) ∧
    siblings treeK MAX_TRAVERSAL 0xffffff8000200010 =
      [0xffffff8000200010, 0xffffff8000200020, 0xffffff8000200030] ∧
    (treeK.oid 0xffffff8000200020).oid_name = some "kern".toList :=
  have hw := scan_selects_first_exact_match treeK "kern".toList 0xffffff8000200010
    0xffffff8000200020 (by decide) (by decide) (by decide)
  ⟨by decide, by decide, hw.2.1⟩

/-- C7: a level scan over a sibling list (possibly cyclic) in which no node is named
like the segment always ends, having examined at most `MAX_TRAVERSAL` (1000) nodes,
namely the first 1000 of the list or all of them if there are fewer.  When more than
1000 nodes are reachable from the head, it ends with the traversal limit, and the
reroute in which the scan runs (at the root level for `kern`, or at the level of the
children of `kern` for the last segment) returns false with the kernel state exactly as
it was: nothing saved, nothing written, no write-protection call. -/
theorem scan_bounded (env : PatchEnv) (k : Kernel) (segment : CString) (head : Ref)
    (hseg : segment ∈ segments)
    (hnames : ∀ m ∈ siblings k MAX_TRAVERSAL head, hasCStringName k m = true)
    (hno : ∀ m ∈ siblings k MAX_TRAVERSAL head, namedExactly k segment m = false) :
    (∃ outcome examined,
      scanLevel k segment (MAX_TRAVERSAL + 1) head 0 [] = some (outcome, examined) ∧
      examined = siblings k MAX_TRAVERSAL head ∧
      examined.length ≤ MAX_TRAVERSAL ∧
      (outcome = .limitExceeded ∨ outcome = .notFound)) ∧
    ((siblings k (MAX_TRAVERSAL + 1) head).length = MAX_TRAVERSAL + 1 →
      scanLevel k segment (MAX_TRAVERSAL + 1) head 0 [] =
        some (.limitExceeded, siblings k MAX_TRAVERSAL head) ∧
      (segment = "kern".toList → 0xffffff8000000000 ≤ k.gSysctlChildrenAddr →
        head = k.slh_first k.gSysctlChildrenAddr →
        reRouteSecureLevel env k = some (false, k) ∧ reRouteHvVmm env k = some (false, k)) ∧
      (∀ kernNode examined, 0xffffff8000000000 ≤ k.gSysctlChildrenAddr →
        scanLevel k "kern".toList (MAX_TRAVERSAL + 1)
          (k.slh_first k.gSysctlChildrenAddr) 0 [] = some (.found kernNode, examined) →
        (k.oid kernNode).oid_arg1 ≠ 0 →
        head = k.slh_first (k.oid kernNode).oid_arg1 →
        (segment = "securelevel".toList → reRouteSecureLevel env k = some (false, k)) ∧
        (segment = "hv_vmm_present".toList → reRouteHvVmm env k = some (false, k)))) := by
  obtain ⟨hs, hl⟩ := segments_ok segment hseg
  have hscan := scanLevel_no_match k segment hs hl MAX_TRAVERSAL head 0 [] (MAX_TRAVERSAL + 1)
    (by omega) (by omega) (hasCStringName_spec k _ hnames) hno
  rw [List.nil_append] at hscan
  have hlen : ∀ (n : Nat) (node : Ref), (siblings k n node).length ≤ n := by
    intro n
    induction n with
    | zero => intro node; simp [siblings]
    | succ n ih =>
      intro node
      unfold siblings
      split
      · simp
      · simp only [List.length_cons]
        have := ih (k.oid node).oid_link
        omega
  refine ⟨⟨_, _, hscan, rfl, hlen _ _, ?_⟩, ?_⟩
  · split
    · exact Or.inl rfl
    · exact Or.inr rfl
  · intro hmore
    rw [if_pos hmore] at hscan
    refine ⟨hscan, ?_, ?_⟩
    · intro hk hroot hhead
      subst hk
      subst hhead
      have h1 : ¬ k.gSysctlChildrenAddr = 0 := by omega
      have h2 : ¬ k.gSysctlChildrenAddr < 0xffffff8000000000 := by omega
      have hloc : ∀ leaf, locate k leaf = some .limitExceeded := by
        intro leaf
        simp only [locate, h1, h2, if_false, hscan]
      rw [reRouteSecureLevel_eq, reRouteHvVmm_eq, hloc, hloc]
      exact ⟨rfl, rfl⟩
    · intro kernNode examined hroot hkern harg hhead
      subst hhead
      have h1 : ¬ k.gSysctlChildrenAddr = 0 := by omega
      have h2 : ¬ k.gSysctlChildrenAddr < 0xffffff8000000000 := by omega
      have hloc : locate k segment = some .limitExceeded := by
        simp only [locate, h1, h2, if_false, hkern, harg, hscan]
      constructor
      · intro hk
        subst hk
        rw [reRouteSecureLevel_eq, hloc]
        rfl
      · intro hk
        subst hk
        rw [reRouteHvVmm_eq, hloc]
        rfl

/-- Witness for C7: the root list of `loopK` is a one-node cycle; the scan for `kern`
stops at the limit after 1000 nodes and both reroutes return false, state unchanged. -/
theorem scan_bounded_witness :
    (siblings loopK (MAX_TRAVERSAL + 1) 0xffffff8000200010).length = MAX_TRAVERSAL + 1 ∧
    (∃ examined,
      scanLevel loopK "kern".toList (MAX_TRAVERSAL + 1) 0xffffff8000200010 0 []
        = some (.limitExceeded, examined) ∧ examined.length = 1000) ∧
    reRouteSecureLevel patchEnv loopK = some (false, loopK) ∧
    reRouteHvVmm patchEnv loopK = some (false, loopK) := by
  have hrep : ∀ n, siblings loopK n 0xffffff8000200010
      = List.replicate n 0xffffff8000200010 := by
    intro n
    induction n with
    | zero => rfl
    | succ n ih =>
      rw [List.replicate_succ, ← ih]
      rfl
  have hmore : (siblings loopK (MAX_TRAVERSAL + 1) 0xffffff8000200010).length
      = MAX_TRAVERSAL + 1 := by
    rw [hrep, List.length_replicate]
  have hw := scan_bounded patchEnv loopK "kern".toList 0xffffff8000200010 (by decide)
    (by
      intro m hm
      rw [hrep] at hm
      rw [List.eq_of_mem_replicate hm]
      decide)
    (by
      intro m hm
      rw [hrep] at hm
      rw [List.eq_of_mem_replicate hm]
      decide)
  have hlim := hw.2 hmore
  refine ⟨hmore, ⟨_, hlim.1, ?_⟩, hlim.2.1 rfl (by decide) (by decide)⟩
  rw [hrep, List.length_replicate]
  rfl

/-! ## The hypervisor-presence policy -/

theorem isFilteredLoop_iff (procName : CString) (hp : IsCString procName) :
    ∀ table : List DetectedProcess, (∀ e ∈ table, IsCString e.name) →
      (isFilteredLoop procName table = true ↔ procName ∈ table.map (fun e => e.name)) := by
  intro table
  induction table with
  | nil => intro _; simp [isFilteredLoop]
  | cons e rest ih =>
    intro hall
    have he : IsCString e.name := hall e (by simp)
    have hrest := ih (fun x hx => hall x (List.mem_cons_of_mem _ hx))
    unfold isFilteredLoop
    by_cases hc : strcmp procName e.name = 0
    · have heq := (strcmp_eq_zero_iff procName e.name hp he).mp hc
      rw [if_pos hc]
      simp only [List.map_cons, List.mem_cons, heq, true_or]
    · have hne : procName ≠ e.name := fun h => hc ((strcmp_eq_zero_iff procName e.name hp he).mpr h)
      simp only [hc, if_false, hrest, List.map_cons, List.mem_cons, hne, false_or]

/-- C8: called with non-null `oidp` and `req` while a current process exists whose name
`n` (a C string that fits the name buffer) was copied out by `proc_name`,
`phtm_sysctl_vmm_present` hands the value 1 to the caller when `n` is equal to the name
of an entry of `filteredProcs` and the value 0 otherwise, whatever the pid and the other
arguments are; the returned status is that of the copy-out. -/
theorem vmm_present_reports (env : HandlerEnv) (oidp arg1 : Ref) (arg2 : Int) (req : Ref)
    (hoidp : oidp ≠ 0) (hreq : req ≠ 0) (hproc : env.currentProcess ≠ 0)
    (hname : IsCString env.processName)
    (hfits : env.processName.length < env.MAX_PROC_NAME_LEN) :
    (phtm_sysctl_vmm_present env oidp arg1 arg2 req).reported =
      some (if env.processName ∈ filteredProcs.map (fun e => e.name) then 1 else 0) ∧
    (phtm_sysctl_vmm_present env oidp arg1 arg2 req).ret =
      env.sysctlOut (if env.processName ∈ filteredProcs.map (fun e => e.name) then 1 else 0) := by
  have hbuf : procNameBuffer env.processName env.MAX_PROC_NAME_LEN = env.processName := by
    unfold procNameBuffer
    exact List.take_of_length_le (by omega)
  have hiff := isFilteredLoop_iff env.processName hname filteredProcs (by decide)
  by_cases hin : env.processName ∈ filteredProcs.map (fun e => e.name)
  · have ht : isFilteredLoop env.processName filteredProcs = true := hiff.mpr hin
    simp [phtm_sysctl_vmm_present, hoidp, hreq, hproc, hbuf, ht, hin]
  · have ht : isFilteredLoop env.processName filteredProcs = false := by
      rw [← Bool.not_eq_true]
      exact fun h => hin (hiff.mp h)
    simp [phtm_sysctl_vmm_present, hoidp, hreq, hproc, hbuf, ht, hin]

/-- Witness for C8: `SoftwareUpdateNo` is reported 1 for any pid tried; `unrelated`, the
proper initial part `softwareupdate` of an entry, and the names `softwareupdatedX` and
`xsoftwareupdated` that merely contain an entry, are reported 0. -/
theorem vmm_present_reports_witness :
    (phtm_sysctl_vmm_present (handlerEnv 42 "SoftwareUpdateNo") 1 0 0 1).reported = some 1 ∧
    (phtm_sysctl_vmm_present (handlerEnv 0 "SoftwareUpdateNo") 1 0 0 1).reported = some 1 ∧
    (phtm_sysctl_vmm_present (handlerEnv 42 "unrelated") 1 0 0 1).reported = some 0 ∧
    (phtm_sysctl_vmm_present (handlerEnv 42 "softwareupdate") 1 0 0 1).reported = some 0 ∧
    (phtm_sysctl_vmm_present (handlerEnv 42 "softwareupdatedX") 1 0 0 1).reported = some 0 ∧
    (phtm_sysctl_vmm_present (handlerEnv 42 "xsoftwareupdated") 1 0 0 1).reported = some 0 :=
  ⟨(vmm_present_reports (handlerEnv 42 "SoftwareUpdateNo") 1 0 0 1 (by decide) (by decide)
      (by decide) (by decide) (by decide)).1,
   (vmm_present_reports (handlerEnv 0 "SoftwareUpdateNo") 1 0 0 1 (by decide) (by decide)
      (by decide) (by decide) (by decide)).1,
   (vmm_present_reports (handlerEnv 42 "unrelated") 1 0 0 1 (by decide) (by decide)
      (by decide) (by decide) (by decide)).1,
   (vmm_present_reports (handlerEnv 42 "softwareupdate") 1 0 0 1 (by decide) (by decide)
      (by decide) (by decide) (by decide)).1,
   (vmm_present_reports (handlerEnv 42 "softwareupdatedX") 1 0 0 1 (by decide) (by decide)
      (by decide) (by decide) (by decide)).1,
   (vmm_present_reports (handlerEnv 42 "xsoftwareupdated") 1 0 0 1 (by decide) (by decide)
      (by decide) (by decide) (by decide)).1⟩

/-! ## The handler installation -/

theorem scanLevel_congr (k k1 : Kernel) (segment : CString) (hsame : SameTree k k1) :
    ∀ (fuel : Nat) (node : Ref) (traversalCount : Nat) (examined : List Ref),
      scanLevel k1 segment fuel node traversalCount examined =
        scanLevel k segment fuel node traversalCount examined := by
  intro fuel
  induction fuel with
  | zero => intro node tc ex; rfl
  | succ fuel ih =>
    intro node tc ex
    unfold scanLevel
    simp only [hsame.names, hsame.links, ih]

theorem locate_congr (k k1 : Kernel) (leaf : CString) (hsame : SameTree k k1) :
    locate k1 leaf = locate k leaf := by
  unfold locate
  simp only [hsame.root, hsame.heads, hsame.args, scanLevel_congr k k1 _ hsame]

theorem setHandler_sameTree (k : Kernel) (node handler : Ref) :
    SameTree k (k.setHandler node handler) := by
  refine ⟨rfl, fun _ => rfl, ?_, ?_, ?_⟩ <;>
  · intro a
    unfold Kernel.setHandler
    by_cases ha : a = node
    · subst ha; simp
    · simp [Function.update, ha]

/-- The state after a successful installation by `reRouteSecureLevel`. -/
theorem installSecureLevel_true (env : PatchEnv) (k k1 : Kernel) (t : Ref)
    (h : installSecureLevel env k t = (true, k1)) :
    SameTree k k1 ∧ (k.oid t).oid_handler ≠ 0 ∧ env.enableStatus = KERN_SUCCESS ∧
      k1.originalSecureLevelHandler = (k.oid t).oid_handler ∧
      (k1.oid t).oid_handler = env.phtm_sysctl_securelevel := by
  unfold installSecureLevel at h
  by_cases h0 : (k.oid t).oid_handler = 0
  · simp [h0] at h
  · by_cases h1 : env.enableStatus = KERN_SUCCESS
    · simp only [h0, h1, if_false, ne_eq, not_true_eq_false, Prod.mk.injEq, true_and] at h
      subst h
      refine ⟨?_, h0, h1, rfl, ?_⟩
      · have hs := setHandler_sameTree
          (({ k with originalSecureLevelHandler := (k.oid t).oid_handler,
                     trace := k.trace ++ [.saveOriginal (k.oid t).oid_handler] } : Kernel).kernelWriting
            true KERN_SUCCESS) t env.phtm_sysctl_securelevel
        exact ⟨hs.root, hs.heads, hs.links, hs.names, hs.args⟩
      · simp [Kernel.kernelWriting, Kernel.setHandler]
    · simp [h0, h1] at h

/-- The state after a successful installation by `reRouteHvVmm`. -/
theorem installHvVmm_true (env : PatchEnv) (k k1 : Kernel) (t : Ref)
    (h : installHvVmm env k t = (true, k1)) :
    SameTree k k1 ∧ (k.oid t).oid_handler ≠ 0 ∧ env.enableStatus = KERN_SUCCESS ∧
      k1.originalHvVmmHandler = (k.oid t).oid_handler ∧
      (k1.oid t).oid_handler = env.phtm_sysctl_vmm_present := by
  unfold installHvVmm at h
  by_cases h0 : (k.oid t).oid_handler = 0
  · simp [h0] at h
  · by_cases h1 : env.enableStatus = KERN_SUCCESS
    · simp only [h0, h1, if_false, ne_eq, not_true_eq_false, Prod.mk.injEq, true_and] at h
      subst h
      refine ⟨?_, h0, h1, rfl, ?_⟩
      · have hs := setHandler_sameTree
          (({ k with originalHvVmmHandler := (k.oid t).oid_handler,
                     trace := k.trace ++ [.saveOriginal (k.oid t).oid_handler] } : Kernel).kernelWriting
            true KERN_SUCCESS) t env.phtm_sysctl_vmm_present
        exact ⟨hs.root, hs.heads, hs.links, hs.names, hs.args⟩
      · simp [Kernel.kernelWriting, Kernel.setHandler]
    · simp [h0, h1] at h

/-- A reroute that returns true located a target and installed on it. -/
theorem reroute_true_located (install : Ref → Bool × Kernel) (k k1 : Kernel)
    (l : Option Located) (h : l.map (afterLocate install k) = some (true, k1)) :
    ∃ t, l = some (.target t) ∧ install t = (true, k1) := by
  cases l with
  | none => simp at h
  | some loc =>
    cases loc with
    | target t => exact ⟨t, rfl, by simpa [afterLocate] using h⟩
    | rootRejected => simp [afterLocate] at h
    | notFound => simp [afterLocate] at h
    | limitExceeded => simp [afterLocate] at h
    | noChildren => simp [afterLocate] at h

/-- C9, refuted as stated: on the small tree, the first run of `reRouteSecureLevel`
saves the kernel's handler `0x5000`; a second run on the resulting state, with no
uninstall in between, leaves the replacement `0x9000` in the slot, not the kernel's
original.  The same happens with `reRouteHvVmm` (`0x6000`, then `0x9100`). -/
theorem reroute_twice_loses_original :
    savedSecureLevel (reRouteSecureLevel patchEnv treeK) = some 0x5000 ∧
    savedSecureLevel (again (reRouteSecureLevel patchEnv) (reRouteSecureLevel patchEnv treeK))
      = some 0x9000 ∧
    savedSecureLevel (again (reRouteSecureLevel patchEnv) (reRouteSecureLevel patchEnv treeK))
      ≠ some ((treeK.oid 0xffffff8000200050).oid_handler) ∧
    savedHvVmm (reRouteHvVmm patchEnv treeK) = some 0x6000 ∧
    savedHvVmm (again (reRouteHvVmm patchEnv) (reRouteHvVmm patchEnv treeK)) = some 0x9100 ∧
    savedHvVmm (again (reRouteHvVmm patchEnv) (reRouteHvVmm patchEnv treeK))
      ≠ some ((treeK.oid 0xffffff8000200060).oid_handler) := by
  decide

/-- C9, as the code behaves: a run of the installer that returns true has saved the
handler the target node held, the kernel's original.  A second run on the resulting
state, without an uninstall in between, does not look at the slot: it finds the same
node, captures again and returns true, and afterwards the slot holds the handler the
node held at that moment, which is the replacement installed by the first run.  (The
replacement, being the address of a function, is not null.) -/
theorem reroute_twice_recaptures (env : PatchEnv) (k k1 : Kernel)
    (hsl : env.phtm_sysctl_securelevel ≠ 0) (hvm : env.phtm_sysctl_vmm_present ≠ 0) :
    (reRouteSecureLevel env k = some (true, k1) →
      ∃ t, locate k "securelevel".toList = some (.target t) ∧
        k1.originalSecureLevelHandler = (k.oid t).oid_handler ∧
        (k1.oid t).oid_handler = env.phtm_sysctl_securelevel ∧
        ∃ k2, reRouteSecureLevel env k1 = some (true, k2) ∧
          k2.originalSecureLevelHandler = env.phtm_sysctl_securelevel) ∧
    (reRouteHvVmm env k = some (true, k1) →
      ∃ t, locate k "hv_vmm_present".toList = some (.target t) ∧
        k1.originalHvVmmHandler = (k.oid t).oid_handler ∧
        (k1.oid t).oid_handler = env.phtm_sysctl_vmm_present ∧
        ∃ k2, reRouteHvVmm env k1 = some (true, k2) ∧
          k2.originalHvVmmHandler = env.phtm_sysctl_vmm_present) := by
  constructor
  · intro h
    rw [reRouteSecureLevel_eq] at h
    obtain ⟨t, hloc, hinst⟩ := reroute_true_located _ k k1 _ h
    obtain ⟨hsame, _, hen, hsaved, hnew⟩ := installSecureLevel_true env k k1 t hinst
    refine ⟨t, hloc, hsaved, hnew, ?_⟩
    have hloc1 : locate k1 "securelevel".toList = some (.target t) := by
      rw [locate_congr k k1 _ hsame, hloc]
    have hnz : (k1.oid t).oid_handler ≠ 0 := by rw [hnew]; exact hsl
    rw [reRouteSecureLevel_eq, hloc1]
    simp only [Option.map_some', afterLocate, installSecureLevel, hnz, if_false, hen, ne_eq,
      not_true_eq_false]
    exact ⟨_, rfl, hnew⟩
  · intro h
    rw [reRouteHvVmm_eq] at h
    obtain ⟨t, hloc, hinst⟩ := reroute_true_located _ k k1 _ h
    obtain ⟨hsame, _, hen, hsaved, hnew⟩ := installHvVmm_true env k k1 t hinst
    refine ⟨t, hloc, hsaved, hnew, ?_⟩
    have hloc1 : locate k1 "hv_vmm_present".toList = some (.target t) := by
      rw [locate_congr k k1 _ hsame, hloc]
    have hnz : (k1.oid t).oid_handler ≠ 0 := by rw [hnew]; exact hvm
    rw [reRouteHvVmm_eq, hloc1]
    simp only [Option.map_some', afterLocate, installHvVmm, hnz, if_false, hen, ne_eq,
      not_true_eq_false]
    exact ⟨_, rfl, hnew⟩

/-- Witness for the amended C9 on the small tree: both first runs return true, and the
statement gives the slot contents after the second runs. -/
theorem reroute_twice_recaptures_witness :
    (∃ k1, reRouteSecureLevel patchEnv treeK = some (true, k1) ∧
      ∃ k2, reRouteSecureLevel patchEnv k1 = some (true, k2) ∧
        k2.originalSecureLevelHandler = 0x9000) ∧
    (∃ k1, reRouteHvVmm patchEnv treeK = some (true, k1) ∧
      ∃ k2, reRouteHvVmm patchEnv k1 = some (true, k2) ∧
        k2.originalHvVmmHandler = 0x9100) := by
  obtain ⟨r1, hr1⟩ : ∃ r, reRouteSecureLevel patchEnv treeK = some r := by
    rw [reRouteSecureLevel_eq]
    obtain ⟨l, hl⟩ := locate_total treeK "securelevel".toList
    exact ⟨_, by rw [hl]; rfl⟩
  obtain ⟨r2, hr2⟩ : ∃ r, reRouteHvVmm patchEnv treeK = some r := by
    rw [reRouteHvVmm_eq]
    obtain ⟨l, hl⟩ := locate_total treeK "hv_vmm_present".toList
    exact ⟨_, by rw [hl]; rfl⟩
  have hb1 : (reRouteSecureLevel patchEnv treeK).map Prod.fst = some true := by decide
  have hb2 : (reRouteHvVmm patchEnv treeK).map Prod.fst = some true := by decide
  obtain ⟨b1, k1⟩ := r1
  obtain ⟨b2, k1v⟩ := r2
  rw [hr1] at hb1
  rw [hr2] at hb2
  simp only [Option.map_some', Option.some.injEq] at hb1 hb2
  subst hb1
  subst hb2
  obtain ⟨_, _, _, _, k2, h2, h3⟩ :=
    (reroute_twice_recaptures patchEnv treeK k1 (by decide) (by decide)).1 hr1
  obtain ⟨_, _, _, _, k2v, h2v, h3v⟩ :=
    (reroute_twice_recaptures patchEnv treeK k1v (by decide) (by decide)).2 hr2
  exact ⟨⟨k1, hr1, k2, h2, h3⟩, ⟨k1v, hr2, k2v, h2v, h3v⟩⟩

/-- C10: when the walk of a reroute ends at a target node whose handler is null, the
reroute returns false and the kernel state is exactly what it was: the trace gains no
event (the write-enable primitive is not called, no store is made), the handler of the
node stays null and the saved-original slot keeps its value. -/
theorem null_handler_aborts (env : PatchEnv) (k : Kernel) (t : Ref)
    (hnull : (k.oid t).oid_handler = 0) :
    (locate k "securelevel".toList = some (.target t) →
      reRouteSecureLevel env k = some (false, k)) ∧
    (locate k "hv_vmm_present".toList = some (.target t) →
      reRouteHvVmm env k = some (false, k)) := by
  constructor
  · intro hloc
    rw [reRouteSecureLevel_eq, hloc]
    simp [afterLocate, installSecureLevel, hnull]
  · intro hloc
    rw [reRouteHvVmm_eq, hloc]
    simp [afterLocate, installHvVmm, hnull]

/-- Witness for C10: in the small tree with a null `securelevel` handler the walk ends
at that node and `reRouteSecureLevel` returns false leaving the state untouched. -/
theorem null_handler_aborts_witness :
    locate (tree 0 0x6000) "securelevel".toList = some (.target 0xffffff8000200050) ∧
    ((tree 0 0x6000).oid 0xffffff8000200050).oid_handler = 0 ∧
    reRouteSecureLevel patchEnv (tree 0 0x6000) = some (false, tree 0 0x6000) :=
  ⟨by decide, by decide,
    (null_handler_aborts patchEnv (tree 0 0x6000) 0xffffff8000200050 (by decide)).1
      (by decide)⟩

/-! ## The write-protection protocol of the installation step -/

/-- Every run of `reRouteSecureLevel` ends, as the walk followed by the installation
step. -/
theorem reRouteSecureLevel_cases (env : PatchEnv) (k : Kernel) :
    ∃ l, locate k "securelevel".toList = some l ∧
      reRouteSecureLevel env k = some (afterLocate (installSecureLevel env k) k l) := by
  obtain ⟨l, hl⟩ := locate_total k "securelevel".toList
  exact ⟨l, hl, by rw [reRouteSecureLevel_eq, hl]; rfl⟩

/-- Every run of `reRouteHvVmm` ends, as the walk followed by the installation step. -/
theorem reRouteHvVmm_cases (env : PatchEnv) (k : Kernel) :
    ∃ l, locate k "hv_vmm_present".toList = some l ∧
      reRouteHvVmm env k = some (afterLocate (installHvVmm env k) k l) := by
  obtain ⟨l, hl⟩ := locate_total k "hv_vmm_present".toList
  exact ⟨l, hl, by rw [reRouteHvVmm_eq, hl]; rfl⟩

/-- The installation step of `reRouteSecureLevel` when write-enable fails. -/
theorem installSecureLevel_enable_failed (env : PatchEnv) (k : Kernel) (t : Ref)
    (hh : (k.oid t).oid_handler ≠ 0) (hf : env.enableStatus ≠ KERN_SUCCESS) :
    installSecureLevel env k t =
      (false, { k with originalSecureLevelHandler := (k.oid t).oid_handler,
                       trace := k.trace ++ [.saveOriginal (k.oid t).oid_handler,
                                            .setKernelWriting true env.enableStatus] }) := by
  simp [installSecureLevel, hh, hf, Kernel.kernelWriting]

/-- The installation step of `reRouteHvVmm` when write-enable fails. -/
theorem installHvVmm_enable_failed (env : PatchEnv) (k : Kernel) (t : Ref)
    (hh : (k.oid t).oid_handler ≠ 0) (hf : env.enableStatus ≠ KERN_SUCCESS) :
    installHvVmm env k t =
      (false, { k with originalHvVmmHandler := (k.oid t).oid_handler,
                       trace := k.trace ++ [.saveOriginal (k.oid t).oid_handler,
                                            .setKernelWriting true env.enableStatus] }) := by
  simp [installHvVmm, hh, hf, Kernel.kernelWriting]

/-- The installation step of `reRouteSecureLevel` when write-enable succeeds. -/
theorem installSecureLevel_enabled (env : PatchEnv) (k : Kernel) (t : Ref)
    (hh : (k.oid t).oid_handler ≠ 0) (hs : env.enableStatus = KERN_SUCCESS) :
    installSecureLevel env k t =
      (true, { k with
        originalSecureLevelHandler := (k.oid t).oid_handler,
        oid := Function.update k.oid t
          { k.oid t with oid_handler := env.phtm_sysctl_securelevel },
        trace := k.trace ++ [.saveOriginal (k.oid t).oid_handler,
                             .setKernelWriting true env.enableStatus,
                             .writeHandler t env.phtm_sysctl_securelevel,
                             .setKernelWriting false env.disableStatus] }) := by
  simp [installSecureLevel, hh, hs, Kernel.kernelWriting, Kernel.setHandler]

/-- The installation step of `reRouteHvVmm` when write-enable succeeds. -/
theorem installHvVmm_enabled (env : PatchEnv) (k : Kernel) (t : Ref)
    (hh : (k.oid t).oid_handler ≠ 0) (hs : env.enableStatus = KERN_SUCCESS) :
    installHvVmm env k t =
      (true, { k with
        originalHvVmmHandler := (k.oid t).oid_handler,
        oid := Function.update k.oid t
          { k.oid t with oid_handler := env.phtm_sysctl_vmm_present },
        trace := k.trace ++ [.saveOriginal (k.oid t).oid_handler,
                             .setKernelWriting true env.enableStatus,
                             .writeHandler t env.phtm_sysctl_vmm_present,
                             .setKernelWriting false env.disableStatus] }) := by
  simp [installHvVmm, hh, hs, Kernel.kernelWriting, Kernel.setHandler]

/-- C11: when the write-enable call returns a status other than `KERN_SUCCESS`, a run of
`reRouteSecureLevel` (likewise `reRouteHvVmm`) returns false; the memory of the tree is
exactly what it was, so the handler of the target is not mutated; and among the events
of the run there is no write-disable call and no store to a handler field.  When the
walk reached a target with a non-null handler, the events of the run are the capture
of the original followed by the one failed write-enable call, and nothing else. -/
theorem enable_failure_aborts (env : PatchEnv) (k : Kernel)
    (hfail : env.enableStatus ≠ KERN_SUCCESS) :
    (∃ k1 events, reRouteSecureLevel env k = some (false, k1) ∧
      k1.oid = k.oid ∧ k1.slh_first = k.slh_first ∧ k1.trace = k.trace ++ events ∧
      (∀ s, Event.setKernelWriting false s ∉ events) ∧
      (∀ n h, Event.writeHandler n h ∉ events) ∧
      (∀ t, locate k "securelevel".toList = some (.target t) →
        (k.oid t).oid_handler ≠ 0 →
        (k1.oid t).oid_handler = (k.oid t).oid_handler ∧
        events = [.saveOriginal (k.oid t).oid_handler,
                  .setKernelWriting true env.enableStatus])) ∧
    (∃ k1 events, reRouteHvVmm env k = some (false, k1) ∧
      k1.oid = k.oid ∧ k1.slh_first = k.slh_first ∧ k1.trace = k.trace ++ events ∧
      (∀ s, Event.setKernelWriting false s ∉ events) ∧
      (∀ n h, Event.writeHandler n h ∉ events) ∧
      (∀ t, locate k "hv_vmm_present".toList = some (.target t) →
        (k.oid t).oid_handler ≠ 0 →
        (k1.oid t).oid_handler = (k.oid t).oid_handler ∧
        events = [.saveOriginal (k.oid t).oid_handler,
                  .setKernelWriting true env.enableStatus])) := by
  constructor
  · obtain ⟨l, hl, hrun⟩ := reRouteSecureLevel_cases env k
    cases l with
    | target t =>
      by_cases hh : (k.oid t).oid_handler = 0
      · refine ⟨k, [], ?_, rfl, rfl, by simp, by simp, by simp, ?_⟩
        · rw [hrun]; simp [afterLocate, installSecureLevel, hh]
        · intro t2 ht2 hne
          rw [hl] at ht2
          cases ht2
          exact absurd hh hne
      · refine ⟨{ k with originalSecureLevelHandler := (k.oid t).oid_handler,
                         trace := k.trace ++ [.saveOriginal (k.oid t).oid_handler,
                                              .setKernelWriting true env.enableStatus] },
          [.saveOriginal (k.oid t).oid_handler, .setKernelWriting true env.enableStatus],
          ?_, rfl, rfl, rfl, by simp, by simp, ?_⟩
        · rw [hrun]
          simp only [afterLocate]
          rw [installSecureLevel_enable_failed env k t hh hfail]
        · intro t2 ht2 _
          rw [hl] at ht2
          cases ht2
          exact ⟨rfl, rfl⟩
    | rootRejected =>
      exact ⟨k, [], by rw [hrun]; rfl, rfl, rfl, by simp, by simp, by simp,
        fun t ht => by rw [hl] at ht; cases ht⟩
    | notFound =>
      exact ⟨k, [], by rw [hrun]; rfl, rfl, rfl, by simp, by simp, by simp,
        fun t ht => by rw [hl] at ht; cases ht⟩
    | limitExceeded =>
      exact ⟨k, [], by rw [hrun]; rfl, rfl, rfl, by simp, by simp, by simp,
        fun t ht => by rw [hl] at ht; cases ht⟩
    | noChildren =>
      exact ⟨k, [], by rw [hrun]; rfl, rfl, rfl, by simp, by simp, by simp,
        fun t ht => by rw [hl] at ht; cases ht⟩
  · obtain ⟨l, hl, hrun⟩ := reRouteHvVmm_cases env k
    cases l with
    | target t =>
      by_cases hh : (k.oid t).oid_handler = 0
      · refine ⟨k, [], ?_, rfl, rfl, by simp, by simp, by simp, ?_⟩
        · rw [hrun]; simp [afterLocate, installHvVmm, hh]
        · intro t2 ht2 hne
          rw [hl] at ht2
          cases ht2
          exact absurd hh hne
      · refine ⟨{ k with originalHvVmmHandler := (k.oid t).oid_handler,
                         trace := k.trace ++ [.saveOriginal (k.oid t).oid_handler,
                                              .setKernelWriting true env.enableStatus] },
          [.saveOriginal (k.oid t).oid_handler, .setKernelWriting true env.enableStatus],
          ?_, rfl, rfl, rfl, by simp, by simp, ?_⟩
        · rw [hrun]
          simp only [afterLocate]
          rw [installHvVmm_enable_failed env k t hh hfail]
        · intro t2 ht2 _
          rw [hl] at ht2
          cases ht2
          exact ⟨rfl, rfl⟩
    | rootRejected =>
      exact ⟨k, [], by rw [hrun]; rfl, rfl, rfl, by simp, by simp, by simp,
        fun t ht => by rw [hl] at ht; cases ht⟩
    | notFound =>
      exact ⟨k, [], by rw [hrun]; rfl, rfl, rfl, by simp, by simp, by simp,
        fun t ht => by rw [hl] at ht; cases ht⟩
    | limitExceeded =>
      exact ⟨k, [], by rw [hrun]; rfl, rfl, rfl, by simp, by simp, by simp,
        fun t ht => by rw [hl] at ht; cases ht⟩
    | noChildren =>
      exact ⟨k, [], by rw [hrun]; rfl, rfl, rfl, by simp, by simp, by simp,
        fun t ht => by rw [hl] at ht; cases ht⟩

/-- Witness for C11: on the small tree with a write-enable call that returns 5
(`KERN_FAILURE`), `reRouteSecureLevel` returns false, the `securelevel` node keeps the
handler `0x5000`, and the trace holds the capture and the failed enable call only. -/
theorem enable_failure_aborts_witness :
    (reRouteSecureLevel (patchEnvWith 5 0) treeK).map Prod.fst = some false ∧
    (reRouteSecureLevel (patchEnvWith 5 0) treeK).map
        (fun r => (r.2.oid 0xffffff8000200050).oid_handler) = some 0x5000 ∧
    (reRouteSecureLevel (patchEnvWith 5 0) treeK).map (fun r => r.2.trace)
      = some [.saveOriginal 0x5000, .setKernelWriting true 5] ∧
    ∃ k1 events, reRouteHvVmm (patchEnvWith 5 0) treeK = some (false, k1) ∧
      k1.oid = treeK.oid ∧ k1.trace = treeK.trace ++ events ∧
      (∀ s, Event.setKernelWriting false s ∉ events) :=
  have hw := enable_failure_aborts (patchEnvWith 5 0) treeK (by decide)
  ⟨by decide, by decide, by decide,
    match hw.2 with
    | ⟨k1, events, h1, h2, _, h3, h4, _⟩ => ⟨k1, events, h1, h2, h3, h4⟩⟩

/-- C12: when the walk reaches a target `t` with a non-null handler (the capture
succeeds) and the write-enable call succeeds (the overwrite is made), a run of
`reRouteSecureLevel` (likewise `reRouteHvVmm`) returns true whatever status the
write-disable call returns: in the state at return the handler of `t` is the
replacement, the saved-original slot holds the handler `t` had before the call, the
rest of the tree is as before, and the events of the run are capture, write-enable,
handler store, write-disable, the last with whatever status it returned. -/
theorem disable_status_ignored (env : PatchEnv) (k : Kernel) (t : Ref)
    (hh : (k.oid t).oid_handler ≠ 0) (hen : env.enableStatus = KERN_SUCCESS) :
    (locate k "securelevel".toList = some (.target t) →
      ∃ k1, reRouteSecureLevel env k = some (true, k1) ∧
        (k1.oid t).oid_handler = env.phtm_sysctl_securelevel ∧
        k1.originalSecureLevelHandler = (k.oid t).oid_handler ∧
        SameTree k k1 ∧
        k1.trace = k.trace ++ [.saveOriginal (k.oid t).oid_handler,
                               .setKernelWriting true KERN_SUCCESS,
                               .writeHandler t env.phtm_sysctl_securelevel,
                               .setKernelWriting false env.disableStatus]) ∧
    (locate k "hv_vmm_present".toList = some (.target t) →
      ∃ k1, reRouteHvVmm env k = some (true, k1) ∧
        (k1.oid t).oid_handler = env.phtm_sysctl_vmm_present ∧
        k1.originalHvVmmHandler = (k.oid t).oid_handler ∧
        SameTree k k1 ∧
        k1.trace = k.trace ++ [.saveOriginal (k.oid t).oid_handler,
                               .setKernelWriting true KERN_SUCCESS,
                               .writeHandler t env.phtm_sysctl_vmm_present,
                               .setKernelWriting false env.disableStatus]) := by
  constructor
  · intro hloc
    have hrun : reRouteSecureLevel env k = some (installSecureLevel env k t) := by
      rw [reRouteSecureLevel_eq, hloc]; rfl
    obtain ⟨k1, hk1⟩ : ∃ k1, installSecureLevel env k t = (true, k1) :=
      ⟨_, installSecureLevel_enabled env k t hh hen⟩
    obtain ⟨hsame, _, _, hsaved, hnew⟩ := installSecureLevel_true env k k1 t hk1
    refine ⟨k1, by rw [hrun, hk1], hnew, hsaved, hsame, ?_⟩
    have h2 := installSecureLevel_enabled env k t hh hen
    rw [hk1] at h2
    have h3 := congrArg (fun r => r.2.trace) h2
    simp only at h3
    rw [h3, hen]
  · intro hloc
    have hrun : reRouteHvVmm env k = some (installHvVmm env k t) := by
      rw [reRouteHvVmm_eq, hloc]; rfl
    obtain ⟨k1, hk1⟩ : ∃ k1, installHvVmm env k t = (true, k1) :=
      ⟨_, installHvVmm_enabled env k t hh hen⟩
    obtain ⟨hsame, _, _, hsaved, hnew⟩ := installHvVmm_true env k k1 t hk1
    refine ⟨k1, by rw [hrun, hk1], hnew, hsaved, hsame, ?_⟩
    have h2 := installHvVmm_enabled env k t hh hen
    rw [hk1] at h2
    have h3 := congrArg (fun r => r.2.trace) h2
    simp only at h3
    rw [h3, hen]

/-- Witness for C12: on the small tree with a write-disable call that returns 5
(`KERN_FAILURE`), `reRouteSecureLevel` returns true, the `securelevel` node has the
replacement `0x9000` and the slot holds the kernel's handler `0x5000`. -/
theorem disable_status_ignored_witness :
    locate treeK "securelevel".toList = some (.target 0xffffff8000200050) ∧
    ∃ k1, reRouteSecureLevel (patchEnvWith 0 5) treeK = some (true, k1) ∧
      (k1.oid 0xffffff8000200050).oid_handler = 0x9000 ∧
      k1.originalSecureLevelHandler = 0x5000 ∧
      k1.trace = [.saveOriginal 0x5000, .setKernelWriting true 0,
                  .writeHandler 0xffffff8000200050 0x9000, .setKernelWriting false 5] :=
  ⟨by decide,
    match (disable_status_ignored (patchEnvWith 0 5) treeK 0xffffff8000200050
      (by decide) (by decide)).1 (by decide) with
    | ⟨k1, h1, h2, h3, _, h5⟩ => ⟨k1, h1, h2, h3, h5⟩⟩

/-! ## The function reroute, the fallbacks of the replacement routines, the string check -/

/-- C13: `reRouteCopyLoadedKextInfo` returns true exactly when the one `routeMultiple`
call reports success and the original-pointer slot is non-null after it; it returns
false when the call reports failure, and when the slot is null after the call; the
framework is called once, whatever the outcome, and the slot is left as the call left
it. -/
theorem reRouteCopyLoadedKextInfo_result (routeMultiple : Ref → RouteOutcome)
    (original : Ref) :
    ((reRouteCopyLoadedKextInfo routeMultiple original).ret = true ↔
      (routeMultiple original).success = true ∧ (routeMultiple original).original ≠ 0) ∧
    ((routeMultiple original).success = false →
      (reRouteCopyLoadedKextInfo routeMultiple original).ret = false) ∧
    ((routeMultiple original).original = 0 →
      (reRouteCopyLoadedKextInfo routeMultiple original).ret = false) ∧
    (reRouteCopyLoadedKextInfo routeMultiple original).routeCalls = 1 ∧
    (reRouteCopyLoadedKextInfo routeMultiple original).original
      = (routeMultiple original).original := by
  unfold reRouteCopyLoadedKextInfo
  by_cases hs : (routeMultiple original).success = true
  · by_cases ho : (routeMultiple original).original = 0
    · simp [hs, ho]
    · simp [hs, ho]
  · rw [Bool.not_eq_true] at hs
    simp [hs]

/-- C14, refuted as stated: called with a null `oidp`, or with a null `req`, or when no
current process can be obtained, the two sysctl handlers return the error code
`EINVAL` (22) and hand no value to the caller; this is not the answer of an original
handler that reports, say, the true value 0 with status 0. -/
theorem handler_failure_gives_einval :
    phtm_sysctl_securelevel (handlerEnv 42 "launchd") 0 0 0 1
      = { ret := 22, reported := none } ∧
    phtm_sysctl_vmm_present (handlerEnv 42 "launchd") 1 0 0 0
      = { ret := 22, reported := none } ∧
    phtm_sysctl_securelevel handlerEnvNoProc 1 0 0 1 = { ret := 22, reported := none } ∧
    phtm_sysctl_vmm_present handlerEnvNoProc 1 0 0 1 = { ret := 22, reported := none } ∧
    phtm_sysctl_securelevel handlerEnvNoProc 1 0 0 1 ≠ { ret := 0, reported := some 0 } ∧
    phtm_sysctl_vmm_present handlerEnvNoProc 1 0 0 1 ≠ { ret := 0, reported := some 0 } := by
  decide

/-- C14, as the code behaves.  `phtm_OSKext_copyLoadedKextInfo` falls back to the saved
original routine: when no current process can be obtained it returns exactly what the
original returns for the same arguments (pointer and heap), and when the destination
allocation or the iterator creation fails it returns the dictionary the original
returned.  The sysctl handlers `phtm_sysctl_securelevel` and `phtm_sysctl_vmm_present`
have no fallback: with a null `oidp` or `req`, or without a current process, they
return `EINVAL` and hand no value to the caller. -/
theorem internal_failure_outcomes (kenv : KextEnv) (kextIdentifiers bundlePaths : Ref)
    (h : Heap) (f : Ref → Ref → Heap → Ref × Heap) (henv : HandlerEnv)
    (oidp arg1 : Ref) (arg2 : Int) (req : Ref)
    (horig : kenv.original = some f) :
    (kenv.currentProcess = 0 →
      (phtm_OSKext_copyLoadedKextInfo kenv kextIdentifiers bundlePaths h).ret
        = (f kextIdentifiers bundlePaths h).1 ∧
      (phtm_OSKext_copyLoadedKextInfo kenv kextIdentifiers bundlePaths h).heap
        = (f kextIdentifiers bundlePaths h).2 ∧
      (phtm_OSKext_copyLoadedKextInfo kenv kextIdentifiers bundlePaths h).released = []) ∧
    (kenv.currentProcess ≠ 0 → (f kextIdentifiers bundlePaths h).1 ≠ 0 →
      kenv.newDict = 0 ∨ kenv.newIter = 0 →
      (phtm_OSKext_copyLoadedKextInfo kenv kextIdentifiers bundlePaths h).ret
        = (f kextIdentifiers bundlePaths h).1) ∧
    (oidp = 0 ∨ req = 0 ∨ henv.currentProcess = 0 →
      phtm_sysctl_securelevel henv oidp arg1 arg2 req = { ret := EINVAL, reported := none } ∧
      phtm_sysctl_vmm_present henv oidp arg1 arg2 req
        = { ret := EINVAL, reported := none }) := by
  refine ⟨?_, ?_, ?_⟩
  · intro hp
    simp [phtm_OSKext_copyLoadedKextInfo, hp, horig]
  · intro hp hsrc hfail
    by_cases hd : kenv.newDict = 0
    · simp [phtm_OSKext_copyLoadedKextInfo, hp, horig, hsrc, Heap.withCapacity, hd]
    · have hi : kenv.newIter = 0 := by
        rcases hfail with h1 | h1
        · exact absurd h1 hd
        · exact h1
      simp [phtm_OSKext_copyLoadedKextInfo, hp, horig, hsrc, Heap.withCapacity, hd, hi,
        Heap.withCollection]
  · intro hbad
    by_cases h1 : oidp = 0 ∨ req = 0
    · simp [phtm_sysctl_securelevel, phtm_sysctl_vmm_present, h1]
    · have h2 : henv.currentProcess = 0 := by
        rcases hbad with hb | hb | hb
        · exact absurd (Or.inl hb) h1
        · exact absurd (Or.inr hb) h1
        · exact hb
      simp [phtm_sysctl_securelevel, phtm_sysctl_vmm_present, h1, h2]

/-- Witness for the amended C14: without a current process the kext-info routine
returns the dictionary at address 100 that the original returns, filtered entries
included, and leaves the heap alone; the sysctl handlers return `EINVAL`. -/
theorem internal_failure_outcomes_witness :
    (phtm_OSKext_copyLoadedKextInfo kextEnvNoProc 0 0 heap3).ret = 100 ∧
    (phtm_OSKext_copyLoadedKextInfo kextEnvNoProc 0 0 heap3).heap.object 100
      = .OSDictionary [(1, 11), (2, 12), (3, 13)] ∧
    phtm_sysctl_securelevel handlerEnvNoProc 1 0 0 1 = { ret := EINVAL, reported := none } ∧
    phtm_sysctl_vmm_present handlerEnvNoProc 1 0 0 1 = { ret := EINVAL, reported := none } :=
  have hw := internal_failure_outcomes kextEnvNoProc 0 0 heap3 (fun _ _ h => (100, h))
    handlerEnvNoProc 1 0 0 1 rfl
  ⟨(hw.1 rfl).1, by decide, (hw.2.2 (Or.inr (Or.inr rfl))).1, (hw.2.2 (Or.inr (Or.inr rfl))).2⟩

theorem strnlenScan_spec : ∀ (s : CString) (n : Nat),
    (strnlenScan s n).1 = strnlen s n ∧ (strnlenScan s n).2 = min (s.length + 1) n := by
  intro s
  induction s with
  | nil =>
    intro n
    cases n with
    | zero => simp [strnlenScan, strnlen]
    | succ n => simp [strnlenScan, strnlen]
  | cons c cs ih =>
    intro n
    cases n with
    | zero => simp [strnlenScan, strnlen]
    | succ n =>
      obtain ⟨h1, h2⟩ := ih n
      simp only [strnlenScan, h1, h2, strnlen, List.length_cons]
      omega

/-- C15: `isSafeString(s, n)` is false for a null `s`; for a non-null `s`, whose
terminator is the byte at index `strlen(s)`, it is true when that index is below `n`
and false when it is not (no terminator within the first `n` bytes).  The call reads
no byte of a null `s`; of a non-null `s` it reads the bytes its one `strnlen` scan
reads, `min (strlen(s) + 1, n)` of them, so never more than `n` and never past the
terminator; the answer is decided by the result of that scan. -/
theorem isSafeString_spec (n : Nat) :
    isSafeString none n = false ∧
    (∀ s : CString, s.length < n → isSafeString (some s) n = true) ∧
    (∀ s : CString, ¬ s.length < n → isSafeString (some s) n = false) ∧
    (∀ s : CString, isSafeString (some s) n = decide ((strnlenScan s n).1 < n)) ∧
    (∀ s : CString, (strnlenScan s n).2 ≤ n ∧ (strnlenScan s n).2 ≤ s.length + 1) ∧
    (∀ str : Option CString,
      (isSafeStringRun str n).1 = isSafeString str n ∧ (isSafeStringRun str n).2 ≤ n) ∧
    (isSafeStringRun none n).2 = 0 ∧
    (∀ s : CString,
      (isSafeStringRun (some s) n).2 = (strnlenScan s n).2 ∧
      (isSafeStringRun (some s) n).2 = min (s.length + 1) n) ∧
    isSafeString (some "kern".toList) 64 = true ∧
    isSafeString (some "kern".toList) 4 = false ∧
    isSafeString (some "kern".toList) 5 = true ∧
    isSafeString (some []) 0 = false ∧
    isSafeStringRun (some "kern".toList) 64 = (true, 5) ∧
    isSafeStringRun (some "hv_vmm_present".toList) 4 = (false, 4) ∧
    isSafeStringRun (some "kern".toList) 0 = (false, 0) := by
  have hval : ∀ s : CString, isSafeString (some s) n = decide (s.length < n) := by
    intro s
    show decide ((strnlenScan s n).1 < n) = decide (s.length < n)
    rw [(strnlenScan_spec s n).1]
    unfold strnlen
    by_cases h : s.length < n
    · have h2 : min s.length n < n := by omega
      simp [h, h2]
    · have h2 : ¬ min s.length n < n := by omega
      simp [h, h2]
  have hreads : ∀ s : CString, (isSafeStringRun (some s) n).2 = (strnlenScan s n).2 :=
    fun _ => rfl
  refine ⟨rfl, ?_, ?_, fun _ => rfl, ?_, ?_, rfl, ?_,
    by decide, by decide, by decide, by decide, by decide, by decide, by decide⟩
  · intro s hs
    rw [hval]
    simpa using hs
  · intro s hs
    rw [hval]
    simpa using hs
  · intro s
    rw [(strnlenScan_spec s n).2]
    omega
  · intro str
    refine ⟨rfl, ?_⟩
    cases str with
    | none => exact Nat.zero_le _
    | some s =>
      rw [hreads, (strnlenScan_spec s n).2]
      omega
  · intro s
    exact ⟨rfl, by rw [hreads, (strnlenScan_spec s n).2]⟩

/-! ## Not-found outcomes of the walk -/

/-- A scan over a list of at most `MAX_TRAVERSAL` nodes, none named like the segment,
runs off the end of the list. -/
theorem scanLevel_not_found (k : Kernel) (segment : CString) (head : Ref)
    (hseg : segment ∈ segments)
    (hlen : (siblings k (MAX_TRAVERSAL + 1) head).length ≤ MAX_TRAVERSAL)
    (hnames : ∀ m ∈ siblings k MAX_TRAVERSAL head, hasCStringName k m = true)
    (hno : ∀ m ∈ siblings k MAX_TRAVERSAL head, namedExactly k segment m = false) :
    scanLevel k segment (MAX_TRAVERSAL + 1) head 0 [] =
      some (.notFound, siblings k MAX_TRAVERSAL head) := by
  obtain ⟨hs, hl⟩ := segments_ok segment hseg
  have hscan := scanLevel_no_match k segment hs hl MAX_TRAVERSAL head 0 [] (MAX_TRAVERSAL + 1)
    (by omega) (by omega) (hasCStringName_spec k _ hnames) hno
  have hne : ¬ (siblings k (MAX_TRAVERSAL + 1) head).length = MAX_TRAVERSAL + 1 := by omega
  rw [if_neg hne, List.nil_append] at hscan
  exact hscan

/-- C16: with the root address accepted, a run of `reRouteSecureLevel` or of
`reRouteHvVmm` returns false and leaves the kernel state exactly as it was
* when the root list has at most 1000 nodes and none is named `kern`,
* when the `kern` node has a null `oid_arg1`,
* when the child list of `kern` has at most 1000 nodes and none is named like the last
  segment (`securelevel`, respectively `hv_vmm_present`).
In the first and third case the scan in question ran off the end of its list. -/
theorem not_found_aborts (env : PatchEnv) (k : Kernel)
    (hroot : 0xffffff8000000000 ≤ k.gSysctlChildrenAddr) :
    ((siblings k (MAX_TRAVERSAL + 1) (k.slh_first k.gSysctlChildrenAddr)).length
        ≤ MAX_TRAVERSAL →
      (∀ m ∈ siblings k MAX_TRAVERSAL (k.slh_first k.gSysctlChildrenAddr),
        hasCStringName k m = true) →
      (∀ m ∈ siblings k MAX_TRAVERSAL (k.slh_first k.gSysctlChildrenAddr),
        namedExactly k "kern".toList m = false) →
      scanLevel k "kern".toList (MAX_TRAVERSAL + 1) (k.slh_first k.gSysctlChildrenAddr) 0 []
        = some (.notFound, siblings k MAX_TRAVERSAL (k.slh_first k.gSysctlChildrenAddr)) ∧
      reRouteSecureLevel env k = some (false, k) ∧ reRouteHvVmm env k = some (false, k)) ∧
    (∀ kernNode examined,
      scanLevel k "kern".toList (MAX_TRAVERSAL + 1) (k.slh_first k.gSysctlChildrenAddr) 0 []
        = some (.found kernNode, examined) →
      ((k.oid kernNode).oid_arg1 = 0 →
        reRouteSecureLevel env k = some (false, k) ∧ reRouteHvVmm env k = some (false, k)) ∧
      ((k.oid kernNode).oid_arg1 ≠ 0 →
        (siblings k (MAX_TRAVERSAL + 1) (k.slh_first (k.oid kernNode).oid_arg1)).length
          ≤ MAX_TRAVERSAL →
        (∀ m ∈ siblings k MAX_TRAVERSAL (k.slh_first (k.oid kernNode).oid_arg1),
          hasCStringName k m = true) →
        ((∀ m ∈ siblings k MAX_TRAVERSAL (k.slh_first (k.oid kernNode).oid_arg1),
            namedExactly k "securelevel".toList m = false) →
          scanLevel k "securelevel".toList (MAX_TRAVERSAL + 1)
              (k.slh_first (k.oid kernNode).oid_arg1) 0 []
            = some (.notFound,
                siblings k MAX_TRAVERSAL (k.slh_first (k.oid kernNode).oid_arg1)) ∧
          reRouteSecureLevel env k = some (false, k)) ∧
        ((∀ m ∈ siblings k MAX_TRAVERSAL (k.slh_first (k.oid kernNode).oid_arg1),
            namedExactly k "hv_vmm_present".toList m = false) →
          scanLevel k "hv_vmm_present".toList (MAX_TRAVERSAL + 1)
              (k.slh_first (k.oid kernNode).oid_arg1) 0 []
            = some (.notFound,
                siblings k MAX_TRAVERSAL (k.slh_first (k.oid kernNode).oid_arg1)) ∧
          reRouteHvVmm env k = some (false, k)))) := by
  have h1 : ¬ k.gSysctlChildrenAddr = 0 := by omega
  have h2 : ¬ k.gSysctlChildrenAddr < 0xffffff8000000000 := by omega
  constructor
  · intro hlen hnames hno
    have hscan := scanLevel_not_found k "kern".toList _ (by decide) hlen hnames hno
    have hloc : ∀ leaf, locate k leaf = some .notFound := by
      intro leaf
      simp only [locate, h1, h2, if_false, hscan]
    refine ⟨hscan, ?_, ?_⟩
    · rw [reRouteSecureLevel_eq, hloc]; rfl
    · rw [reRouteHvVmm_eq, hloc]; rfl
  · intro kernNode examined hkern
    constructor
    · intro harg
      have hloc : ∀ leaf, locate k leaf = some .noChildren := by
        intro leaf
        simp only [locate, h1, h2, if_false, hkern, harg, if_true]
      constructor
      · rw [reRouteSecureLevel_eq, hloc]; rfl
      · rw [reRouteHvVmm_eq, hloc]; rfl
    · intro harg hlen hnames
      constructor
      · intro hno
        have hscan := scanLevel_not_found k "securelevel".toList _ (by decide) hlen hnames hno
        have hloc : locate k "securelevel".toList = some .notFound := by
          simp only [locate, h1, h2, if_false, hkern, harg, hscan]
        exact ⟨hscan, by rw [reRouteSecureLevel_eq, hloc]; rfl⟩
      · intro hno
        have hscan := scanLevel_not_found k "hv_vmm_present".toList _ (by decide) hlen hnames
          hno
        have hloc : locate k "hv_vmm_present".toList = some .notFound := by
          simp only [locate, h1, h2, if_false, hkern, harg, hscan]
        exact ⟨hscan, by rw [reRouteHvVmm_eq, hloc]; rfl⟩

/-- Witness for C16 on three trees: a root list `[vm, kernel, debug]` without a node
named `kern`; a `kern` node with a null child-list pointer; a `kern` node whose child
list `[ostype]` holds neither leaf.  Both reroutes return false each time and leave the
state as it was. -/
theorem not_found_aborts_witness :
    (reRouteSecureLevel patchEnv (sparseK "kernel" 0xffffff8000100100)
        = some (false, sparseK "kernel" 0xffffff8000100100) ∧
      reRouteHvVmm patchEnv (sparseK "kernel" 0xffffff8000100100)
        = some (false, sparseK "kernel" 0xffffff8000100100)) ∧
    (reRouteSecureLevel patchEnv (sparseK "kern" 0) = some (false, sparseK "kern" 0) ∧
      reRouteHvVmm patchEnv (sparseK "kern" 0) = some (false, sparseK "kern" 0)) ∧
    (reRouteSecureLevel patchEnv (sparseK "kern" 0xffffff8000100100)
        = some (false, sparseK "kern" 0xffffff8000100100) ∧
      reRouteHvVmm patchEnv (sparseK "kern" 0xffffff8000100100)
        = some (false, sparseK "kern" 0xffffff8000100100)) :=
  have hA := (not_found_aborts patchEnv (sparseK "kernel" 0xffffff8000100100) (by decide)).1
    (by decide) (by decide) (by decide)
  have hB := ((not_found_aborts patchEnv (sparseK "kern" 0) (by decide)).2
    0xffffff8000200020 [0xffffff8000200010, 0xffffff8000200020] (by decide)).1 (by decide)
  have hC := ((not_found_aborts patchEnv (sparseK "kern" 0xffffff8000100100) (by decide)).2
    0xffffff8000200020 [0xffffff8000200010, 0xffffff8000200020] (by decide)).2 (by decide)
    (by decide) (by decide)
  ⟨hA.2, hB, (hC.1 (by decide)).2, (hC.2 (by decide)).2⟩

/-! ## Order of the stores and the write-protection calls -/

/-- C18, refuted as stated: the root address `0xffffff8000100001` is not a multiple of 8
and `isValidKernelAddress` rejects it, yet both reroutes go on to traverse the list
stored there: the scan for `kern` examines its nodes, the walk reaches the target, and
the reroutes return true with the handler replaced. -/
theorem unaligned_root_is_traversed :
    oddRootK.gSysctlChildrenAddr % 8 ≠ 0 ∧
    isValidKernelAddress oddRootK.gSysctlChildrenAddr = false ∧
    scanLevel oddRootK "kern".toList (MAX_TRAVERSAL + 1)
        (oddRootK.slh_first oddRootK.gSysctlChildrenAddr) 0 []
      = some (.found 0xffffff8000200020, [0xffffff8000200010, 0xffffff8000200020]) ∧
    locate oddRootK "securelevel".toList = some (.target 0xffffff8000200050) ∧
    (reRouteSecureLevel patchEnv oddRootK).map
        (fun r => (r.1, (r.2.oid 0xffffff8000200050).oid_handler)) = some (true, 0x9000) ∧
    (reRouteHvVmm patchEnv oddRootK).map
        (fun r => (r.1, (r.2.oid 0xffffff8000200060).oid_handler)) = some (true, 0x9100) := by
  decide

/-- C18, as the code behaves: the reroutes do not call `isValidKernelAddress`; they test
the root address inline.  A root address below `0xffffff8000000000` (null included) is
rejected: the walk ends before any list is read and both reroutes return false with
the state unchanged.  Every root address from `0xffffff8000000000` on is accepted,
aligned or not: the walk goes on to scan the list stored at that address, and its
outcome is the outcome of that scan and of what follows it. -/
theorem root_check_is_lower_bound (env : PatchEnv) (k : Kernel) (leaf : CString) :
    (k.gSysctlChildrenAddr < 0xffffff8000000000 →
      locate k leaf = some .rootRejected ∧
      reRouteSecureLevel env k = some (false, k) ∧
      reRouteHvVmm env k = some (false, k)) ∧
    (0xffffff8000000000 ≤ k.gSysctlChildrenAddr →
      locate k leaf ≠ some .rootRejected ∧
      ∃ outcome examined,
        scanLevel k "kern".toList (MAX_TRAVERSAL + 1)
          (k.slh_first k.gSysctlChildrenAddr) 0 [] = some (outcome, examined) ∧
        (outcome = .notFound → locate k leaf = some .notFound) ∧
        (outcome = .limitExceeded → locate k leaf = some .limitExceeded) ∧
        (∀ kernNode, outcome = .found kernNode →
          locate k leaf ≠ some .rootRejected ∧
          ((k.oid kernNode).oid_arg1 = 0 → locate k leaf = some .noChildren))) := by
  constructor
  · intro hlow
    have hloc : ∀ leaf, locate k leaf = some .rootRejected := by
      intro leaf
      unfold locate
      by_cases h0 : k.gSysctlChildrenAddr = 0
      · simp [h0]
      · simp [h0, hlow]
    refine ⟨hloc leaf, ?_, ?_⟩
    · rw [reRouteSecureLevel_eq, hloc]; rfl
    · rw [reRouteHvVmm_eq, hloc]; rfl
  · intro hhigh
    have h1 : ¬ k.gSysctlChildrenAddr = 0 := by omega
    have h2 : ¬ k.gSysctlChildrenAddr < 0xffffff8000000000 := by omega
    obtain ⟨r, hr, _⟩ := scanLevel_total k "kern".toList (MAX_TRAVERSAL + 1)
      (k.slh_first k.gSysctlChildrenAddr) 0 [] (by omega) (by omega) rfl
    obtain ⟨outcome, examined⟩ := r
    have hne : locate k leaf ≠ some .rootRejected := by
      unfold locate
      simp only [h1, h2, if_false, hr]
      cases outcome with
      | notFound => simp
      | limitExceeded => simp
      | found kernNode =>
        by_cases h3 : (k.oid kernNode).oid_arg1 = 0
        · simp [h3]
        · simp only [h3, if_false]
          cases hs2 : scanLevel k leaf (MAX_TRAVERSAL + 1)
              (k.slh_first (k.oid kernNode).oid_arg1) 0 [] with
          | none => simp
          | some r2 =>
            obtain ⟨sc2, ex2⟩ := r2
            cases sc2 <;> simp
    refine ⟨hne, outcome, examined, hr, ?_, ?_, ?_⟩
    · intro ho
      subst ho
      simp only [locate, h1, h2, if_false, hr]
    · intro ho
      subst ho
      simp only [locate, h1, h2, if_false, hr]
    · intro kernNode ho
      subst ho
      refine ⟨hne, ?_⟩
      intro harg
      simp only [locate, h1, h2, if_false, hr, harg, if_true]

/-- Witness for the amended C18: a null root and a user-space root are rejected without
a scan; the roots of `treeK` (aligned) and `oddRootK` (unaligned) are accepted. -/
theorem root_check_is_lower_bound_witness :
    reRouteSecureLevel patchEnv { treeK with gSysctlChildrenAddr := 0 }
      = some (false, { treeK with gSysctlChildrenAddr := 0 }) ∧
    reRouteHvVmm patchEnv { treeK with gSysctlChildrenAddr := 0x7fff00001000 }
      = some (false, { treeK with gSysctlChildrenAddr := 0x7fff00001000 }) ∧
    locate treeK "securelevel".toList ≠ some .rootRejected ∧
    locate oddRootK "securelevel".toList ≠ some .rootRejected :=
  ⟨((root_check_is_lower_bound patchEnv { treeK with gSysctlChildrenAddr := 0 }
      "securelevel".toList).1 (by decide)).2.1,
   ((root_check_is_lower_bound patchEnv { treeK with gSysctlChildrenAddr := 0x7fff00001000 }
      "hv_vmm_present".toList).1 (by decide)).2.2,
   ((root_check_is_lower_bound patchEnv treeK "securelevel".toList).2 (by decide)).1,
   ((root_check_is_lower_bound patchEnv oddRootK "securelevel".toList).2 (by decide)).1⟩

/-! ## The windowed scan -/

theorem windowScanLog_spec (key pat : CString) (filterLen : Nat) : ∀ (n j : Nat),
    (windowScanLog key pat filterLen j n).1 = windowScan key pat filterLen j n ∧
    ∀ i ∈ (windowScanLog key pat filterLen j n).2, j ≤ i ∧ i < j + n := by
  intro n
  induction n with
  | zero => intro j; simp [windowScanLog, windowScan]
  | succ n ih =>
    intro j
    obtain ⟨h1, h2⟩ := ih (j + 1)
    unfold windowScanLog windowScan
    by_cases hc : strncmp (key.drop j) pat filterLen = 0
    · simp only [hc, if_true, List.mem_singleton, true_and]
      intro i hi
      omega
    · simp only [hc, if_false, h1, List.mem_cons, true_and]
      intro i hi
      rcases hi with rfl | hi
      · omega
      · have := h2 i hi
        omega

/-- C19: for every key `k` and pattern `p` (empty or not), the windowed scan of
`phtm_OSKext_copyLoadedKextInfo` reports a match exactly when `p` occurs in `k` as a
contiguous block, that is when `k = a ++ p ++ b` for some `a` and `b`, at any offset
and not only at the start; when `p` is longer than `k` it reports no match and
compares nothing; and every window it compares, `len(p)` characters from an offset
`j`, lies inside `k`: `j + len(p) ≤ len(k)`. -/
theorem windowed_scan_is_substring_test (k p : CString) :
    (foundFilter k p = true ↔ p <:+: k) ∧
    (foundFilter k p = true ↔ ∃ a b, k = a ++ p ++ b) ∧
    (k.length < p.length → foundFilter k p = false ∧ (foundFilterLog k p).2 = []) ∧
    (foundFilterLog k p).1 = foundFilter k p ∧
    (∀ j ∈ (foundFilterLog k p).2, j + p.length ≤ k.length) ∧
    foundFilter "x.org.acidanthera.kext".toList "org.acidanthera".toList = true ∧
    foundFilter "org.Acidanthera.kext".toList "org.acidanthera".toList = false ∧
    (foundFilterLog "abcde".toList "cd".toList) = (true, [0, 1, 2]) := by
  refine ⟨foundFilter_iff_occurs k p, ?_, ?_, ?_, ?_, by decide, by decide, by decide⟩
  · rw [foundFilter_iff_occurs]
    constructor
    · rintro ⟨a, b, h⟩
      exact ⟨a, b, h.symm⟩
    · rintro ⟨a, b, h⟩
      exact ⟨a, b, h.symm⟩
  · intro hlt
    have hn : ¬ k.length ≥ p.length := by omega
    constructor
    · simp [foundFilter, strlen, hn]
    · simp [foundFilterLog, strlen, hn]
  · unfold foundFilterLog foundFilter
    by_cases hge : strlen k ≥ strlen p
    · simp only [hge, if_true]
      exact (windowScanLog_spec k p (strlen p) _ 0).1
    · simp only [hge, if_false]
  · intro j hj
    unfold foundFilterLog at hj
    by_cases hge : strlen k ≥ strlen p
    · simp only [hge, if_true] at hj
      have := (windowScanLog_spec k p (strlen p) (strlen k - strlen p + 1) 0).2 j hj
      unfold strlen at hge this
      omega
    · simp only [hge, if_false, List.not_mem_nil] at hj

/-! ## What a reroute leaves alone -/

theorem SameTree.rfl (k : Kernel) : SameTree k k :=
  ⟨Eq.refl _, fun _ => Eq.refl _, fun _ => Eq.refl _, fun _ => Eq.refl _, fun _ => Eq.refl _⟩

/-- The installation step of `reRouteSecureLevel` changes nothing of the tree but,
possibly, the handler field of the node it is given. -/
theorem installSecureLevel_frame (env : PatchEnv) (k : Kernel) (t : Ref) :
    SameTree k (installSecureLevel env k t).2 ∧
    ∀ a, a ≠ t → (installSecureLevel env k t).2.oid a = k.oid a := by
  by_cases hh : (k.oid t).oid_handler = 0
  · have : installSecureLevel env k t = (false, k) := by simp [installSecureLevel, hh]
    rw [this]
    exact ⟨SameTree.rfl k, fun _ _ => rfl⟩
  · by_cases hen : env.enableStatus = KERN_SUCCESS
    · have hi := installSecureLevel_enabled env k t hh hen
      obtain ⟨hsame, _⟩ := installSecureLevel_true env k _ t hi
      rw [hi]
      refine ⟨hsame, ?_⟩
      intro a ha
      simp [Function.update, ha]
    · rw [installSecureLevel_enable_failed env k t hh hen]
      exact ⟨⟨rfl, fun _ => rfl, fun _ => rfl, fun _ => rfl, fun _ => rfl⟩, fun _ _ => rfl⟩

/-- The installation step of `reRouteHvVmm` changes nothing of the tree but, possibly,
the handler field of the node it is given. -/
theorem installHvVmm_frame (env : PatchEnv) (k : Kernel) (t : Ref) :
    SameTree k (installHvVmm env k t).2 ∧
    ∀ a, a ≠ t → (installHvVmm env k t).2.oid a = k.oid a := by
  by_cases hh : (k.oid t).oid_handler = 0
  · have : installHvVmm env k t = (false, k) := by simp [installHvVmm, hh]
    rw [this]
    exact ⟨SameTree.rfl k, fun _ _ => rfl⟩
  · by_cases hen : env.enableStatus = KERN_SUCCESS
    · have hi := installHvVmm_enabled env k t hh hen
      obtain ⟨hsame, _⟩ := installHvVmm_true env k _ t hi
      rw [hi]
      refine ⟨hsame, ?_⟩
      intro a ha
      simp [Function.update, ha]
    · rw [installHvVmm_enable_failed env k t hh hen]
      exact ⟨⟨rfl, fun _ => rfl, fun _ => rfl, fun _ => rfl, fun _ => rfl⟩, fun _ _ => rfl⟩

/-- C20: every run of `reRouteSecureLevel` (likewise `reRouteHvVmm`) ends, with any
outcome, in a state that holds the same tree: the root address, every list head, and
the name, sibling link and argument slot of every node are what they were, so no node
is added, removed or moved; and every node other than the target the walk located,
every node at all when it located none, is unchanged in all its fields, handler
included. -/
theorem reroute_frame (env : PatchEnv) (k : Kernel) :
    (∃ b k1, reRouteSecureLevel env k = some (b, k1) ∧ SameTree k k1 ∧
      ∀ a, locate k "securelevel".toList ≠ some (.target a) → k1.oid a = k.oid a) ∧
    (∃ b k1, reRouteHvVmm env k = some (b, k1) ∧ SameTree k k1 ∧
      ∀ a, locate k "hv_vmm_present".toList ≠ some (.target a) → k1.oid a = k.oid a) := by
  constructor
  · obtain ⟨l, hl, hrun⟩ := reRouteSecureLevel_cases env k
    cases l with
    | target t =>
      obtain ⟨hsame, hframe⟩ := installSecureLevel_frame env k t
      refine ⟨(installSecureLevel env k t).1, (installSecureLevel env k t).2, ?_, hsame, ?_⟩
      · rw [hrun]; rfl
      · intro a ha
        apply hframe
        intro hat
        subst hat
        exact ha hl
    | rootRejected => exact ⟨false, k, by rw [hrun]; rfl, SameTree.rfl k, fun _ _ => rfl⟩
    | notFound => exact ⟨false, k, by rw [hrun]; rfl, SameTree.rfl k, fun _ _ => rfl⟩
    | limitExceeded => exact ⟨false, k, by rw [hrun]; rfl, SameTree.rfl k, fun _ _ => rfl⟩
    | noChildren => exact ⟨false, k, by rw [hrun]; rfl, SameTree.rfl k, fun _ _ => rfl⟩
  · obtain ⟨l, hl, hrun⟩ := reRouteHvVmm_cases env k
    cases l with
    | target t =>
      obtain ⟨hsame, hframe⟩ := installHvVmm_frame env k t
      refine ⟨(installHvVmm env k t).1, (installHvVmm env k t).2, ?_, hsame, ?_⟩
      · rw [hrun]; rfl
      · intro a ha
        apply hframe
        intro hat
        subst hat
        exact ha hl
    | rootRejected => exact ⟨false, k, by rw [hrun]; rfl, SameTree.rfl k, fun _ _ => rfl⟩
    | notFound => exact ⟨false, k, by rw [hrun]; rfl, SameTree.rfl k, fun _ _ => rfl⟩
    | limitExceeded => exact ⟨false, k, by rw [hrun]; rfl, SameTree.rfl k, fun _ _ => rfl⟩
    | noChildren => exact ⟨false, k, by rw [hrun]; rfl, SameTree.rfl k, fun _ _ => rfl⟩

/-! ## The results a reroute gives its caller -/

set_option maxRecDepth 100000 in
/-- C21, refuted as stated: the root list of `loopK` exceeds the bound (its scan ends
with the traversal limit) and the root list of the tree `[vm, kernel, debug]` is
scanned to its end without a match (its scan ends with not-found), yet each reroute
gives its caller the same result, false, for the two. -/
theorem limit_and_not_found_same_result :
    locate loopK "securelevel".toList = some .limitExceeded ∧
    locate (sparseK "kernel" 0xffffff8000100100) "securelevel".toList = some .notFound ∧
    (reRouteSecureLevel patchEnv loopK).map Prod.fst = some false ∧
    (reRouteSecureLevel patchEnv (sparseK "kernel" 0xffffff8000100100)).map Prod.fst
      = some false ∧
    (reRouteSecureLevel patchEnv loopK).map Prod.fst
      = (reRouteSecureLevel patchEnv (sparseK "kernel" 0xffffff8000100100)).map Prod.fst ∧
    (reRouteHvVmm patchEnv loopK).map Prod.fst
      = (reRouteHvVmm patchEnv (sparseK "kernel" 0xffffff8000100100)).map Prod.fst := by
  decide

/-- C21, as the code behaves: inside a reroute the two ways a scan can fail are
different exits (the walk records them as different outcomes), but the caller is given
the same result for both.  Whenever the walk on a tree `kA` ends with the traversal
limit and the walk on a tree `kB` ends with not-found, `reRouteSecureLevel` (likewise
`reRouteHvVmm`) returns false on both and leaves each state as it was. -/
theorem limit_and_not_found_both_false (env : PatchEnv) (kA kB : Kernel) :
    Located.limitExceeded ≠ Located.notFound ∧
    (locate kA "securelevel".toList = some .limitExceeded →
      locate kB "securelevel".toList = some .notFound →
      reRouteSecureLevel env kA = some (false, kA) ∧
      reRouteSecureLevel env kB = some (false, kB) ∧
      (reRouteSecureLevel env kA).map Prod.fst = (reRouteSecureLevel env kB).map Prod.fst) ∧
    (locate kA "hv_vmm_present".toList = some .limitExceeded →
      locate kB "hv_vmm_present".toList = some .notFound →
      reRouteHvVmm env kA = some (false, kA) ∧
      reRouteHvVmm env kB = some (false, kB) ∧
      (reRouteHvVmm env kA).map Prod.fst = (reRouteHvVmm env kB).map Prod.fst) ∧
    (∀ examinedA examinedB,
      0xffffff8000000000 ≤ kA.gSysctlChildrenAddr →
      0xffffff8000000000 ≤ kB.gSysctlChildrenAddr →
      scanLevel kA "kern".toList (MAX_TRAVERSAL + 1)
          (kA.slh_first kA.gSysctlChildrenAddr) 0 [] = some (.limitExceeded, examinedA) →
      scanLevel kB "kern".toList (MAX_TRAVERSAL + 1)
          (kB.slh_first kB.gSysctlChildrenAddr) 0 [] = some (.notFound, examinedB) →
      reRouteSecureLevel env kA = some (false, kA) ∧
      reRouteSecureLevel env kB = some (false, kB) ∧
      reRouteHvVmm env kA = some (false, kA) ∧
      reRouteHvVmm env kB = some (false, kB)) := by
  refine ⟨by decide, ?_, ?_, ?_⟩
  · intro hA hB
    have rA : reRouteSecureLevel env kA = some (false, kA) := by
      rw [reRouteSecureLevel_eq, hA]; rfl
    have rB : reRouteSecureLevel env kB = some (false, kB) := by
      rw [reRouteSecureLevel_eq, hB]; rfl
    exact ⟨rA, rB, by rw [rA, rB]; rfl⟩
  · intro hA hB
    have rA : reRouteHvVmm env kA = some (false, kA) := by
      rw [reRouteHvVmm_eq, hA]; rfl
    have rB : reRouteHvVmm env kB = some (false, kB) := by
      rw [reRouteHvVmm_eq, hB]; rfl
    exact ⟨rA, rB, by rw [rA, rB]; rfl⟩
  · intro exA exB hrA hrB hsA hsB
    have a1 : ¬ kA.gSysctlChildrenAddr = 0 := by omega
    have a2 : ¬ kA.gSysctlChildrenAddr < 0xffffff8000000000 := by omega
    have b1 : ¬ kB.gSysctlChildrenAddr = 0 := by omega
    have b2 : ¬ kB.gSysctlChildrenAddr < 0xffffff8000000000 := by omega
    have lA : ∀ leaf, locate kA leaf = some .limitExceeded := by
      intro leaf
      simp only [locate, a1, a2, if_false, hsA]
    have lB : ∀ leaf, locate kB leaf = some .notFound := by
      intro leaf
      simp only [locate, b1, b2, if_false, hsB]
    refine ⟨?_, ?_, ?_, ?_⟩
    · rw [reRouteSecureLevel_eq, lA]; rfl
    · rw [reRouteSecureLevel_eq, lB]; rfl
    · rw [reRouteHvVmm_eq, lA]; rfl
    · rw [reRouteHvVmm_eq, lB]; rfl

set_option maxRecDepth 100000 in
/-- Witness for the amended C21 on the cyclic root list of `loopK` and on the root list
`[vm, kernel, debug]`. -/
theorem limit_and_not_found_both_false_witness :
    reRouteSecureLevel patchEnv loopK = some (false, loopK) ∧
    reRouteSecureLevel patchEnv (sparseK "kernel" 0xffffff8000100100)
      = some (false, sparseK "kernel" 0xffffff8000100100) ∧
    reRouteHvVmm patchEnv loopK = some (false, loopK) ∧
    reRouteHvVmm patchEnv (sparseK "kernel" 0xffffff8000100100)
      = some (false, sparseK "kernel" 0xffffff8000100100) :=
  have hw := limit_and_not_found_both_false patchEnv loopK
    (sparseK "kernel" 0xffffff8000100100)
  have hs := hw.2.1 (by decide) (by decide)
  have hv := hw.2.2.1 (by decide) (by decide)
  ⟨hs.1, hs.2.1, hv.1, hv.2.1⟩

/-- C22: every run of `reRouteSecureLevel` (likewise `reRouteHvVmm`) ends, whatever the
two write-protection calls return, and
* if it returns false, the memory of every node is what it was before the call, so
  every handler is unchanged (this covers a rejected root, a node not found, the
  traversal limit, a null child list, a null handler and a failed write-enable);
* if it returns true, the walk located a target, and the handler of that target is the
  replacement after the call;
* for a located target whose handler at entry is not the replacement, the run returns
  true exactly when the handler of the target is the replacement after the call. -/
theorem true_iff_handler_replaced (env : PatchEnv) (k : Kernel) :
    (∃ b k1, reRouteSecureLevel env k = some (b, k1) ∧
      (b = false → k1.oid = k.oid) ∧
      (b = true → ∃ t, locate k "securelevel".toList = some (.target t) ∧
        (k1.oid t).oid_handler = env.phtm_sysctl_securelevel) ∧
      (∀ t, locate k "securelevel".toList = some (.target t) →
        (k.oid t).oid_handler ≠ env.phtm_sysctl_securelevel →
        (b = true ↔ (k1.oid t).oid_handler = env.phtm_sysctl_securelevel))) ∧
    (∃ b k1, reRouteHvVmm env k = some (b, k1) ∧
      (b = false → k1.oid = k.oid) ∧
      (b = true → ∃ t, locate k "hv_vmm_present".toList = some (.target t) ∧
        (k1.oid t).oid_handler = env.phtm_sysctl_vmm_present) ∧
      (∀ t, locate k "hv_vmm_present".toList = some (.target t) →
        (k.oid t).oid_handler ≠ env.phtm_sysctl_vmm_present →
        (b = true ↔ (k1.oid t).oid_handler = env.phtm_sysctl_vmm_present))) := by
  constructor
  · obtain ⟨l, hl, hrun⟩ := reRouteSecureLevel_cases env k
    have hidle : afterLocate (installSecureLevel env k) k l = (false, k) →
        ∃ b k1, reRouteSecureLevel env k = some (b, k1) ∧
          (b = false → k1.oid = k.oid) ∧
          (b = true → ∃ t, locate k "securelevel".toList = some (.target t) ∧
            (k1.oid t).oid_handler = env.phtm_sysctl_securelevel) ∧
          (∀ t, locate k "securelevel".toList = some (.target t) →
            (k.oid t).oid_handler ≠ env.phtm_sysctl_securelevel →
            (b = true ↔ (k1.oid t).oid_handler = env.phtm_sysctl_securelevel)) := by
      intro h
      refine ⟨false, k, by rw [hrun, h], fun _ => rfl, ?_, ?_⟩
      · intro hb; cases hb
      intro t _ hne
      constructor
      · intro hb; cases hb
      · intro hp; exact absurd hp hne
    cases l with
    | target t =>
      by_cases hh : (k.oid t).oid_handler = 0
      · exact hidle (by simp [afterLocate, installSecureLevel, hh])
      · by_cases hen : env.enableStatus = KERN_SUCCESS
        · have hi := installSecureLevel_enabled env k t hh hen
          have hnew : ((installSecureLevel env k t).2.oid t).oid_handler
              = env.phtm_sysctl_securelevel := by
            rw [hi]; simp
          refine ⟨true, (installSecureLevel env k t).2, ?_, ?_, ?_, ?_⟩
          · rw [hrun]
            simp only [afterLocate]
            rw [hi]
          · intro hb; cases hb
          · intro _; exact ⟨t, hl, hnew⟩
          · intro t2 ht2 _
            rw [hl] at ht2
            cases ht2
            exact ⟨fun _ => hnew, fun _ => rfl⟩
        · have hi := installSecureLevel_enable_failed env k t hh hen
          refine ⟨false, (installSecureLevel env k t).2, ?_, ?_, ?_, ?_⟩
          · rw [hrun]
            simp only [afterLocate]
            rw [hi]
          · intro _; rw [hi]
          · intro hb; cases hb
          · intro t2 ht2 hne
            rw [hl] at ht2
            cases ht2
            constructor
            · intro hb; cases hb
            · intro hp
              rw [hi] at hp
              exact absurd hp hne
    | rootRejected => exact hidle rfl
    | notFound => exact hidle rfl
    | limitExceeded => exact hidle rfl
    | noChildren => exact hidle rfl
  · obtain ⟨l, hl, hrun⟩ := reRouteHvVmm_cases env k
    have hidle : afterLocate (installHvVmm env k) k l = (false, k) →
        ∃ b k1, reRouteHvVmm env k = some (b, k1) ∧
          (b = false → k1.oid = k.oid) ∧
          (b = true → ∃ t, locate k "hv_vmm_present".toList = some (.target t) ∧
            (k1.oid t).oid_handler = env.phtm_sysctl_vmm_present) ∧
          (∀ t, locate k "hv_vmm_present".toList = some (.target t) →
            (k.oid t).oid_handler ≠ env.phtm_sysctl_vmm_present →
            (b = true ↔ (k1.oid t).oid_handler = env.phtm_sysctl_vmm_present)) := by
      intro h
      refine ⟨false, k, by rw [hrun, h], fun _ => rfl, ?_, ?_⟩
      · intro hb; cases hb
      intro t _ hne
      constructor
      · intro hb; cases hb
      · intro hp; exact absurd hp hne
    cases l with
    | target t =>
      by_cases hh : (k.oid t).oid_handler = 0
      · exact hidle (by simp [afterLocate, installHvVmm, hh])
      · by_cases hen : env.enableStatus = KERN_SUCCESS
        · have hi := installHvVmm_enabled env k t hh hen
          have hnew : ((installHvVmm env k t).2.oid t).oid_handler
              = env.phtm_sysctl_vmm_present := by
            rw [hi]; simp
          refine ⟨true, (installHvVmm env k t).2, ?_, ?_, ?_, ?_⟩
          · rw [hrun]
            simp only [afterLocate]
            rw [hi]
          · intro hb; cases hb
          · intro _; exact ⟨t, hl, hnew⟩
          · intro t2 ht2 _
            rw [hl] at ht2
            cases ht2
            exact ⟨fun _ => hnew, fun _ => rfl⟩
        · have hi := installHvVmm_enable_failed env k t hh hen
          refine ⟨false, (installHvVmm env k t).2, ?_, ?_, ?_, ?_⟩
          · rw [hrun]
            simp only [afterLocate]
            rw [hi]
          · intro _; rw [hi]
          · intro hb; cases hb
          · intro t2 ht2 hne
            rw [hl] at ht2
            cases ht2
            constructor
            · intro hb; cases hb
            · intro hp
              rw [hi] at hp
              exact absurd hp hne
    | rootRejected => exact hidle rfl
    | notFound => exact hidle rfl
    | limitExceeded => exact hidle rfl
    | noChildren => exact hidle rfl

end Phantom
